import Mathlib

/-!
# Long-press context menu: gesture recognizer and menu presenter

A shallow embedding of `static/js/mobile-context-menu.js`.

* The DOM is seen through what the script reads: an event target is an element
  together with its chain of ancestors, and `closest` is a search along that chain.
* The module-level variables `pressTimer` and `currentTarget` and the browser's
  table of armed timers form the recognizer state; listeners are functions on it.
* The document is seen through the elements carrying the id `contextMenu`;
  `showContextMenu`, `closeContextMenu`, the row click handler and the two
  document-level listeners are functions on it.
* Caller-supplied callbacks are not interpreted: an invocation is recorded in a log.
-/

namespace MobileContextMenu

/-! ## DOM -/

/-- An element, reduced to what the script's selectors look at: its identity,
the two data attributes and its class list. -/
structure Element where
  uid : Nat
  dataItemId : Option String
  dataVocabId : Option String
  classes : List String
deriving DecidableEq, Repr

/-- A node of the document tree: an element and its proper ancestors, nearest first. -/
structure DomNode where
  self : Element
  ancestors : List Element
deriving DecidableEq, Repr

/-- The element itself followed by its ancestors up to the root. -/
def DomNode.inclusiveAncestors (n : DomNode) : List Element :=
  n.self :: n.ancestors

/-- `node.closest(selector)`: the nearest inclusive ancestor matching the selector. -/
def DomNode.closest (n : DomNode) (selector : Element → Bool) : Option Element :=
  n.inclusiveAncestors.find? selector

/-- The selector `[data-item-id], [data-vocab-id]`. -/
def identitySelector (el : Element) : Bool :=
  el.dataItemId.isSome || el.dataVocabId.isSome

/-- The selector `.context-menu`. -/
def contextMenuSelector (el : Element) : Bool :=
  el.classes.contains "context-menu"

/-- A point of a touch list, or the coordinates carried by a pointer event. -/
structure TouchPoint where
  pageX : Int
  pageY : Int
deriving DecidableEq, Repr

/-- A touch event: `e.target`, the element on which the contact that the event
reports was put down; `e.touches`, all the contacts that are on the screen,
oldest first; and `e.changedTouches`, the contacts that the event reports, which
for a touch-start are the ones just put down. The listeners read `e.target` and
`e.touches` only. With one finger the two lists are the same. -/
structure TouchEvent where
  target : DomNode
  touches : List TouchPoint
  changedTouches : List TouchPoint := touches
deriving DecidableEq, Repr

/-- A `contextmenu` event: `e.target`, `e.pageX`, `e.pageY`. -/
structure MouseEvent where
  target : DomNode
  pageX : Int
  pageY : Int
deriving DecidableEq, Repr

/-! ## Gesture recognizer (`setupLongPress`) -/

/-- Where an effect comes from: the firing of the timer with the given handle,
or a `contextmenu` listener. -/
inductive Origin where
  | timer (handle : Nat)
  | click
deriving DecidableEq, Repr

/-- What the recognizer does to the outside world. `surface` names the attachment
(one call of `setupLongPress`), hence the `contextMenuFunction` that is called. -/
inductive Effect where
  | preventDefault (origin : Origin)
  | intent (origin : Origin) (surface : Nat) (target : Element) (pageX pageY : Int)
  | typeError (origin : Origin)
deriving DecidableEq, Repr

/-- The origin recorded in an effect. -/
def Effect.origin : Effect → Origin
  | .preventDefault o => o
  | .intent o _ _ _ _ => o
  | .typeError o => o

/-- Whether the effect is a call of the callback. -/
def Effect.isIntent : Effect → Bool
  | .intent _ _ _ _ _ => true
  | _ => false

/-- An armed timer: its handle, the time at which it is due, and what its
closure captured (the attachment and the touch-start event `e`). -/
structure Timer where
  handle : Nat
  due : Nat
  surface : Nat
  ev : TouchEvent
deriving DecidableEq, Repr

/-- The long-press delay, in milliseconds. -/
def longPressDelay : Nat := 500

/-- The state the recognizer runs on: the clock and timer table of the browser,
the two module-level variables, and the log of effects. Timers are kept in the
order in which they were armed, which is the order in which they are due. -/
structure Recognizer where
  now : Nat
  nextHandle : Nat
  timers : List Timer
  pressTimer : Option Nat
  currentTarget : Option Element
  log : List Effect
deriving DecidableEq, Repr

/-- The state when the script has just been loaded. -/
def Recognizer.init : Recognizer :=
  { now := 0, nextHandle := 1, timers := [], pressTimer := none,
    currentTarget := none, log := [] }

/-- `clearTimeout(handle)`: no effect for `null` or for a handle that is not armed. -/
def clearTimeout (handle : Option Nat) (st : Recognizer) : Recognizer :=
  match handle with
  | none => st
  | some h => { st with timers := st.timers.filter (fun t => t.handle != h) }

/-- The `touchstart` listener: `pressTimer = setTimeout(..., 500)`. -/
def touchstart (surface : Nat) (e : TouchEvent) (st : Recognizer) : Recognizer :=
  { st with
    timers := st.timers ++
      [{ handle := st.nextHandle, due := st.now + longPressDelay, surface := surface, ev := e }]
    nextHandle := st.nextHandle + 1
    pressTimer := some st.nextHandle }

/-- The `touchend` listener: `clearTimeout(pressTimer)`. -/
def touchend (_surface : Nat) (st : Recognizer) : Recognizer :=
  clearTimeout st.pressTimer st

/-- The `touchmove` listener: `clearTimeout(pressTimer)`. -/
def touchmove (_surface : Nat) (st : Recognizer) : Recognizer :=
  clearTimeout st.pressTimer st

/-- The body of the timer callback armed by `touchstart`. -/
def longPressCallback (t : Timer) (st : Recognizer) : Recognizer :=
  let st1 := { st with log := st.log ++ [Effect.preventDefault (.timer t.handle)] }
  let st2 := { st1 with currentTarget := t.ev.target.closest identitySelector }
  match st2.currentTarget with
  | none => st2
  | some target =>
    match t.ev.touches.head? with
    | none => { st2 with log := st2.log ++ [Effect.typeError (.timer t.handle)] }
    | some touch =>
      { st2 with log := st2.log ++
          [Effect.intent (.timer t.handle) t.surface target touch.pageX touch.pageY] }

/-- The `contextmenu` listener. -/
def contextmenu (surface : Nat) (e : MouseEvent) (st : Recognizer) : Recognizer :=
  let st1 := { st with log := st.log ++ [Effect.preventDefault .click] }
  let st2 := { st1 with currentTarget := e.target.closest identitySelector }
  match st2.currentTarget with
  | none => st2
  | some target =>
    { st2 with log := st2.log ++ [Effect.intent .click surface target e.pageX e.pageY] }

/-- Let `ms` milliseconds pass: every timer that is due by then is taken out of
the table and its callback run, in the order of the table. -/
def advance (ms : Nat) (st : Recognizer) : Recognizer :=
  let due := st.timers.filter (fun t => decide (t.due ≤ st.now + ms))
  let rest := st.timers.filter (fun t => !decide (t.due ≤ st.now + ms))
  due.foldl (fun s t => longPressCallback t s) { st with now := st.now + ms, timers := rest }

/-- What can happen to the recognizer: a listener of some attachment runs, or time passes. -/
inductive Input where
  | touchstart (surface : Nat) (e : TouchEvent)
  | touchend (surface : Nat)
  | touchmove (surface : Nat)
  | contextmenu (surface : Nat) (e : MouseEvent)
  | advance (ms : Nat)
deriving DecidableEq, Repr

/-- One step of the recognizer. -/
def Recognizer.step (st : Recognizer) : Input → Recognizer
  | .touchstart s e => MobileContextMenu.touchstart s e st
  | .touchend s => MobileContextMenu.touchend s st
  | .touchmove s => MobileContextMenu.touchmove s st
  | .contextmenu s e => MobileContextMenu.contextmenu s e st
  | .advance ms => MobileContextMenu.advance ms st

/-- Run a sequence of inputs. -/
def Recognizer.run (st : Recognizer) (inputs : List Input) : Recognizer :=
  inputs.foldl Recognizer.step st

/-- Whether the input is a `touchend` or a `touchmove`. -/
def Input.isCancel : Input → Bool
  | .touchend _ => true
  | .touchmove _ => true
  | _ => false

/-- The time an input lets pass. -/
def Input.elapsed : Input → Nat
  | .advance ms => ms
  | _ => 0

/-- The time a sequence of inputs lets pass. -/
def totalElapsed (inputs : List Input) : Nat :=
  (inputs.map Input.elapsed).sum

/-- The calls of the callback recorded in a log. -/
def intents (log : List Effect) : List Effect :=
  log.filter Effect.isIntent

/-- The effects of a log that come from the firing of the timer `h`. -/
def effectsOfTimer (h : Nat) (log : List Effect) : List Effect :=
  log.filter (fun ef => decide (ef.origin = Origin.timer h))

/-! ## Menu presenter (`showContextMenu`, `closeContextMenu`, document listeners) -/

/-- A caller-supplied `action` callback. It is not interpreted: `tag` tells
callbacks apart and `raises` tells whether a call of it ends by raising an error. -/
structure Action where
  tag : Nat
  raises : Bool
deriving DecidableEq, Repr

/-- An entry of `options.items`. -/
structure Item where
  label : String
  icon : Option String
  className : Option String
  action : Action
deriving DecidableEq, Repr

/-- A row of the popup (`menuItem`): its class attribute, its markup, and the
item captured by its `onclick` handler. -/
structure Row where
  className : String
  innerHTML : String
  item : Item
deriving DecidableEq, Repr

/-- The popup (`menu`). Its id `contextMenu`, its class `context-menu` and its
fixed positioning are the same for every popup and are not fields; `top` and
`left` are the pixel values of its style, absent until they are set; `target`
is the `targetElement` captured by the handlers of its rows. -/
structure Popup where
  uid : Nat
  top : Option Int
  left : Option Int
  rows : List Row
  target : Element
deriving DecidableEq, Repr

/-- The popup as an element of the document tree. -/
def Popup.element (m : Popup) : Element :=
  { uid := m.uid, dataItemId := none, dataVocabId := none, classes := ["context-menu"] }

/-- Whether the node lies in the subtree of the popup. -/
def DomNode.isInside (n : DomNode) (m : Popup) : Bool :=
  n.inclusiveAncestors.contains m.element

/-- What the presenter does to the outside world: a call of an action with a
target, and an error that leaves a function of the script uncaught. -/
inductive DocEffect where
  | actionCalled (tag : Nat) (target : Element)
  | uncaught
deriving DecidableEq, Repr

/-- The document, reduced to the elements with id `contextMenu` in it (in
document order), the supply of fresh element identities, the popups whose
deferred correction is still scheduled, and the log of effects. -/
structure Document where
  popups : List Popup
  nextUid : Nat
  pendingCorrections : List Nat
  log : List DocEffect
deriving DecidableEq, Repr

/-- A document without popup. -/
def Document.empty : Document :=
  { popups := [], nextUid := 0, pendingCorrections := [], log := [] }

/-- `document.getElementById('contextMenu')`. -/
def getElementById (doc : Document) : Option Popup :=
  doc.popups.head?

/-- `element.remove()`, for the element with the given identity. -/
def removeElement (uid : Nat) (doc : Document) : Document :=
  { doc with popups := doc.popups.filter (fun m => m.uid != uid) }

/-- The `event` of the options: a touch list when the event has one, and the
coordinates of the event itself. -/
structure AnchorEvent where
  touches : Option (List TouchPoint)
  pageX : Int
  pageY : Int
deriving DecidableEq, Repr

/-- The argument of `showContextMenu`. -/
structure Options where
  event : AnchorEvent
  items : List Item
  targetElement : Element
deriving DecidableEq, Repr

/-- The row built for an item by the body of `items.forEach`. -/
def menuItemFor (item : Item) : Row :=
  { className := "context-menu-item" ++
      (match item.className with
       | some c => if c = "" then "" else " " ++ c
       | none => "")
    innerHTML := "<span class=\"menu-icon\">" ++ item.icon.getD "" ++ "</span> " ++ item.label
    item := item }

/-- `event.touches ? event.touches[0] : event`; `none` stands for `undefined`. -/
def anchorTouch (event : AnchorEvent) : Option TouchPoint :=
  match event.touches with
  | some touches => touches.head?
  | none => some { pageX := event.pageX, pageY := event.pageY }

/-- `showContextMenu(options)`. When `touch` is undefined the property access
raises after the popup has been appended: the popup stays, unpositioned, and
no correction is scheduled. -/
def showContextMenu (options : Options) (doc : Document) : Document :=
  let doc1 :=
    match getElementById doc with
    | some existingMenu => removeElement existingMenu.uid doc
    | none => doc
  let menu : Popup :=
    { uid := doc1.nextUid, top := none, left := none,
      rows := options.items.map menuItemFor, target := options.targetElement }
  match anchorTouch options.event with
  | none =>
    { doc1 with
      popups := doc1.popups ++ [menu]
      nextUid := doc1.nextUid + 1
      log := doc1.log ++ [DocEffect.uncaught] }
  | some touch =>
    { doc1 with
      popups := doc1.popups ++ [{ menu with top := some touch.pageY, left := some touch.pageX }]
      nextUid := doc1.nextUid + 1
      pendingCorrections := doc1.pendingCorrections ++ [menu.uid] }

/-- The `onclick` handler of a row of `menu`: the action is called with the
captured target and then the popup is removed; an error raised by the action
leaves the handler before the removal. The handler stops the propagation of
the click, so the `click` listener of the document does not run for it. -/
def menuItemOnclick (menu : Popup) (row : Row) (doc : Document) : Document :=
  let doc1 := { doc with log := doc.log ++ [DocEffect.actionCalled row.item.action.tag menu.target] }
  if row.item.action.raises then
    { doc1 with log := doc1.log ++ [DocEffect.uncaught] }
  else
    removeElement menu.uid doc1

/-- The user selects the row `index` of the popup `menuUid`. Only a row of a
popup that is in the document can be selected. -/
def selectItem (menuUid index : Nat) (doc : Document) : Document :=
  match doc.popups.find? (fun m => m.uid == menuUid) with
  | none => doc
  | some menu =>
    match menu.rows.get? index with
    | none => doc
    | some row => menuItemOnclick menu row doc

/-- `closeContextMenu()`. -/
def closeContextMenu (doc : Document) : Document :=
  match getElementById doc with
  | some menu => removeElement menu.uid doc
  | none => doc

/-- The `click` listener of the document. -/
def documentClick (target : DomNode) (doc : Document) : Document :=
  if (target.closest contextMenuSelector).isNone then closeContextMenu doc else doc

/-- The `touchstart` listener of the document. -/
def documentTouchstart (target : DomNode) (doc : Document) : Document :=
  if (target.closest contextMenuSelector).isNone then closeContextMenu doc else doc

/-- A bounding box, as returned by `getBoundingClientRect()`. -/
structure Rect where
  left : Int
  top : Int
  right : Int
  bottom : Int
  width : Int
  height : Int
deriving DecidableEq, Repr

/-- The window: `innerWidth` and `innerHeight`. -/
structure Viewport where
  innerWidth : Int
  innerHeight : Int
deriving DecidableEq, Repr

/-- The box of a popup of the given rendered size: a fixed-position box whose
top-left corner is at its style coordinates. -/
def Popup.boundingClientRect (m : Popup) (width height : Int) : Rect :=
  { left := m.left.getD 0, top := m.top.getD 0,
    right := m.left.getD 0 + width, bottom := m.top.getD 0 + height,
    width := width, height := height }

/-- The body of the deferred callback of `showContextMenu`, given the measured box. -/
def correctPosition (window : Viewport) (rect : Rect) (menu : Popup) : Popup :=
  let menu1 :=
    if rect.right > window.innerWidth then
      { menu with left := some (window.innerWidth - rect.width - 10) }
    else menu
  if rect.bottom > window.innerHeight then
    { menu1 with top := some (window.innerHeight - rect.height - 10) }
  else menu1

/-- The deferred callback scheduled by `showContextMenu` for the popup `uid`
runs, the popup being rendered with the given size. -/
def deferredCorrection (uid : Nat) (width height : Int) (window : Viewport)
    (doc : Document) : Document :=
  if doc.pendingCorrections.contains uid then
    { doc with
      pendingCorrections := doc.pendingCorrections.erase uid
      popups := doc.popups.map (fun m =>
        if m.uid = uid then correctPosition window (m.boundingClientRect width height) m else m) }
  else doc

/-- What can happen to the document. -/
inductive Op where
  | show (options : Options)
  | close
  | select (menuUid index : Nat)
  | click (target : DomNode)
  | touchstart (target : DomNode)
  | layout (uid : Nat) (width height : Int) (window : Viewport)
deriving DecidableEq, Repr

/-- One step of the document. -/
def Document.step (doc : Document) : Op → Document
  | .show options => showContextMenu options doc
  | .close => closeContextMenu doc
  | .select menuUid index => selectItem menuUid index doc
  | .click target => documentClick target doc
  | .touchstart target => documentTouchstart target doc
  | .layout uid width height window => deferredCorrection uid width height window doc

/-- Run a sequence of operations. -/
def Document.run (doc : Document) (ops : List Op) : Document :=
  ops.foldl Document.step doc

/-! ## Auxiliary definitions for the proofs -/

/-- The effects of one run of the timer callback, in order. -/
def callbackEffects (t : Timer) : List Effect :=
  Effect.preventDefault (.timer t.handle) ::
    (match t.ev.target.closest identitySelector with
     | none => []
     | some target =>
       match t.ev.touches.head? with
       | none => [Effect.typeError (.timer t.handle)]
       | some touch =>
         [Effect.intent (.timer t.handle) t.surface target touch.pageX touch.pageY])

/-- Run the callbacks of the given timers, in order. -/
def fireAll (ts : List Timer) (st : Recognizer) : Recognizer :=
  ts.foldl (fun s t => longPressCallback t s) st

/-- Whether the input is a `touchstart`. -/
def Input.isTouchstart : Input → Bool
  | .touchstart _ _ => true
  | _ => false

/-- Handles are issued in increasing order: every armed timer and every effect
of a timer has a handle below the next one to be issued. -/
def RecInv (st : Recognizer) : Prop :=
  (∀ t ∈ st.timers, t.handle < st.nextHandle) ∧
  (∀ ef ∈ st.log, ∀ h, ef.origin = Origin.timer h → h < st.nextHandle)

/-- The handle `h` has been issued and no timer with this handle is armed. -/
def Gone (h : Nat) (st : Recognizer) : Prop :=
  st.timers.filter (fun t => t.handle == h) = [] ∧ h < st.nextHandle

/-- The timer `timer` is the one armed timer with handle `h`; it is not due yet
and has had no effect so far. -/
def Armed (h : Nat) (timer : Timer) (st : Recognizer) : Prop :=
  st.timers.filter (fun t => t.handle == h) = [timer] ∧ st.now < timer.due ∧
  h < st.nextHandle ∧ effectsOfTimer h st.log = []

/-- The variable `pressTimer` holds the handle `h`, whose timer, if still armed,
is not due before `due` and has had no effect so far. -/
def Pending (h due : Nat) (st : Recognizer) : Prop :=
  st.pressTimer = some h ∧ h < st.nextHandle ∧ effectsOfTimer h st.log = [] ∧
  ∀ t ∈ st.timers, t.handle = h → due ≤ t.due

/-- The document holds at most one popup, and element identities are fresh. -/
def DocInv (doc : Document) : Prop :=
  doc.popups.length ≤ 1 ∧ ∀ m ∈ doc.popups, m.uid < doc.nextUid

/-! ## Concrete data used in the examples -/

/-- An element `<div data-item-id="42">`. -/
def Example.item42 : Element :=
  { uid := 42, dataItemId := some "42", dataVocabId := none, classes := [] }

/-- An element `<li data-vocab-id="7">`. -/
def Example.vocab7 : Element :=
  { uid := 70, dataItemId := none, dataVocabId := some "7", classes := [] }

/-- A touch-start at (100, 200) on a child of `item42`, itself inside a list. -/
def Example.pressOnItem42 : TouchEvent :=
  { target := { self := { uid := 43, dataItemId := none, dataVocabId := none, classes := [] },
                ancestors := [Example.item42,
                  { uid := 1, dataItemId := none, dataVocabId := none, classes := ["list"] }] },
    touches := [{ pageX := 100, pageY := 200 }] }

/-- A touch-start at (30, 40) on `vocab7`. -/
def Example.pressOnVocab7 : TouchEvent :=
  { target := { self := Example.vocab7,
                ancestors := [{ uid := 2, dataItemId := none, dataVocabId := none,
                                classes := ["words"] }] },
    touches := [{ pageX := 30, pageY := 40 }] }

/-- A menu entry whose action returns normally. -/
def Example.deleteItem : Item :=
  { label := "Delete", icon := none, className := none, action := { tag := 1, raises := false } }

/-- A menu entry whose action raises an error. -/
def Example.failingItem : Item :=
  { label := "Delete", icon := none, className := none, action := { tag := 7, raises := true } }

/-- Options anchored at (900, 50) with the entry `deleteItem`. -/
def Example.deleteOptions : Options :=
  { event := { touches := none, pageX := 900, pageY := 50 },
    items := [Example.deleteItem], targetElement := Example.item42 }

/-- Options anchored at (900, 50) with the entry `failingItem`. -/
def Example.failingOptions : Options :=
  { event := { touches := none, pageX := 900, pageY := 50 },
    items := [Example.failingItem], targetElement := Example.item42 }

/-- An element of class `context-menu` that is not the popup. -/
def Example.otherMenu : Element :=
  { uid := 77, dataItemId := none, dataVocabId := none, classes := ["context-menu"] }

/-- A node inside `otherMenu`, outside every popup. -/
def Example.otherMenuEntry : DomNode :=
  { self := { uid := 78, dataItemId := none, dataVocabId := none, classes := [] },
    ancestors := [Example.otherMenu,
      { uid := 2, dataItemId := none, dataVocabId := none, classes := [] }] }

/-- A node of the page outside every element of class `context-menu`. -/
def Example.pageNode : DomNode :=
  { self := { uid := 3, dataItemId := none, dataVocabId := none, classes := ["page"] },
    ancestors := [] }

/-! ## Definitions for the claims on target resolution and placement -/

/-- The target passed by a call of the callback; `none` for any other effect. -/
def Effect.target? : Effect → Option Element
  | .intent _ _ target _ _ => some target
  | _ => none

/-- The handle `h` has been issued to `timer`: no other timer carries it, and
every effect of handle `h` so far is an effect of the callback of `timer`. -/
def Owned (h : Nat) (timer : Timer) (st : Recognizer) : Prop :=
  h < st.nextHandle ∧ (∀ t ∈ st.timers, t.handle = h → t = timer) ∧
  ∀ ef ∈ effectsOfTimer h st.log, ef ∈ callbackEffects timer

/-- A touch-start at (10, 20) on an element without identity attribute, none of
whose ancestors has one. -/
def Example.pressOnPlain : TouchEvent :=
  { target := { self := { uid := 90, dataItemId := none, dataVocabId := none, classes := ["note"] },
                ancestors := [{ uid := 1, dataItemId := none, dataVocabId := none,
                                classes := ["list"] }] },
    touches := [{ pageX := 10, pageY := 20 }] }

/-- A secondary click at (5, 6) on `item42`. -/
def Example.clickOnItem42 : MouseEvent :=
  { target := { self := Example.item42, ancestors := [] }, pageX := 5, pageY := 6 }

/-- Options whose event carries an empty touch list, as a `touchend` event does. -/
def Example.touchendOptions : Options :=
  { event := { touches := some [], pageX := 120, pageY := 80 },
    items := [Example.deleteItem], targetElement := Example.item42 }

/-- Options anchored at (50, 50) with the entry `deleteItem`. -/
def Example.narrowOptions : Options :=
  { event := { touches := none, pageX := 50, pageY := 50 },
    items := [Example.deleteItem], targetElement := Example.item42 }

/-- A menu entry with an icon and a style tag. -/
def Example.editItem : Item :=
  { label := "Edit", icon := some "E", className := some "primary",
    action := { tag := 2, raises := false } }

/-- Options with two entries and an event carrying two touch points. -/
def Example.editDeleteOptions : Options :=
  { event := { touches := some [{ pageX := 40, pageY := 60 }, { pageX := 300, pageY := 400 }],
               pageX := 0, pageY := 0 },
    items := [Example.editItem, Example.deleteItem], targetElement := Example.vocab7 }

/-- A touch-start on a child of `item42`: the finger is put down at (100, 200)
while another finger, put down earlier outside every attached surface, rests
on the screen at (5, 5). -/
def Example.secondFingerOnItem42 : TouchEvent :=
  { target := { self := { uid := 43, dataItemId := none, dataVocabId := none, classes := [] },
                ancestors := [Example.item42,
                  { uid := 1, dataItemId := none, dataVocabId := none, classes := ["list"] }] },
    touches := [{ pageX := 5, pageY := 5 }, { pageX := 100, pageY := 200 }],
    changedTouches := [{ pageX := 100, pageY := 200 }] }

/-- A secondary click at (300, 120) on a child of `item42`, which itself lies
inside `vocab7`. -/
def Example.clickInsideItem42 : MouseEvent :=
  { target := { self := { uid := 43, dataItemId := none, dataVocabId := none, classes := [] },
                ancestors := [Example.item42, Example.vocab7,
                  { uid := 1, dataItemId := none, dataVocabId := none, classes := ["list"] }] },
    pageX := 300, pageY := 120 }

/-- A secondary click at (7, 8) on an element without identity attribute, none
of whose ancestors has one. -/
def Example.clickOnPlain : MouseEvent :=
  { target := { self := { uid := 90, dataItemId := none, dataVocabId := none, classes := ["note"] },
                ancestors := [{ uid := 1, dataItemId := none, dataVocabId := none,
                                classes := ["list"] }] },
    pageX := 7, pageY := 8 }

/-! ## Lemmas on the recognizer -/

/-- The callback appends its effects to the log. -/
theorem longPressCallback_log (t : Timer) (st : Recognizer) :
    (longPressCallback t st).log = st.log ++ callbackEffects t := by
  unfold longPressCallback callbackEffects
  cases t.ev.target.closest identitySelector with
  | none => simp
  | some target =>
    cases t.ev.touches.head? with
    | none => simp
    | some touch => simp

/-- The callback leaves the timer table, the clock, the handle supply and `pressTimer` alone. -/
theorem longPressCallback_frame (t : Timer) (st : Recognizer) :
    (longPressCallback t st).timers = st.timers ∧ (longPressCallback t st).now = st.now ∧
    (longPressCallback t st).nextHandle = st.nextHandle ∧
    (longPressCallback t st).pressTimer = st.pressTimer := by
  unfold longPressCallback
  cases t.ev.target.closest identitySelector with
  | none => simp
  | some target =>
    cases t.ev.touches.head? with
    | none => simp
    | some touch => simp

/-- Running several callbacks appends their effects in order. -/
theorem fireAll_log (ts : List Timer) (st : Recognizer) :
    (fireAll ts st).log = st.log ++ ts.flatMap callbackEffects := by
  induction ts generalizing st with
  | nil => simp [fireAll]
  | cons t ts ih =>
    have := ih (longPressCallback t st)
    simp only [fireAll, List.foldl_cons] at this ⊢
    rw [this, longPressCallback_log]
    simp

/-- Running several callbacks leaves the timer table, the clock, the handle supply and `pressTimer` alone. -/
theorem fireAll_frame (ts : List Timer) (st : Recognizer) :
    (fireAll ts st).timers = st.timers ∧ (fireAll ts st).now = st.now ∧
    (fireAll ts st).nextHandle = st.nextHandle ∧
    (fireAll ts st).pressTimer = st.pressTimer := by
  induction ts generalizing st with
  | nil => simp [fireAll]
  | cons t ts ih =>
    have h1 := ih (longPressCallback t st)
    have h2 := longPressCallback_frame t st
    simp only [fireAll, List.foldl_cons] at h1 ⊢
    exact ⟨h1.1.trans h2.1, h1.2.1.trans h2.2.1, h1.2.2.1.trans h2.2.2.1,
      h1.2.2.2.trans h2.2.2.2⟩

/-- The passing of time, written with `fireAll`. -/
theorem advance_eq (ms : Nat) (st : Recognizer) :
    advance ms st = fireAll (st.timers.filter (fun t => decide (t.due ≤ st.now + ms)))
      { st with now := st.now + ms,
                timers := st.timers.filter (fun t => !decide (t.due ≤ st.now + ms)) } := rfl

/-- The passing of time appends the effects of the timers that are due. -/
theorem advance_log (ms : Nat) (st : Recognizer) :
    (advance ms st).log = st.log ++
      (st.timers.filter (fun t => decide (t.due ≤ st.now + ms))).flatMap callbackEffects := by
  rw [advance_eq, fireAll_log]

/-- The passing of time keeps the timers that are not due and moves the clock. -/
theorem advance_frame (ms : Nat) (st : Recognizer) :
    (advance ms st).timers = st.timers.filter (fun t => !decide (t.due ≤ st.now + ms)) ∧
    (advance ms st).now = st.now + ms ∧
    (advance ms st).nextHandle = st.nextHandle ∧
    (advance ms st).pressTimer = st.pressTimer := by
  rw [advance_eq]
  exact fireAll_frame _ _

/-- The effects of a timer in a concatenated log. -/
theorem effectsOfTimer_append (h : Nat) (l1 l2 : List Effect) :
    effectsOfTimer h (l1 ++ l2) = effectsOfTimer h l1 ++ effectsOfTimer h l2 := by
  simp [effectsOfTimer]

/-- Every effect of a callback carries the handle of its timer. -/
theorem effectsOfTimer_callbackEffects (h : Nat) (t : Timer) :
    effectsOfTimer h (callbackEffects t) = if t.handle = h then callbackEffects t else [] := by
  unfold callbackEffects effectsOfTimer
  by_cases hh : t.handle = h
  · cases t.ev.target.closest identitySelector with
    | none => simp [hh, Effect.origin]
    | some target =>
      cases t.ev.touches.head? with
      | none => simp [hh, Effect.origin]
      | some touch => simp [hh, Effect.origin]
  · cases t.ev.target.closest identitySelector with
    | none => simp [hh, Effect.origin]
    | some target =>
      cases t.ev.touches.head? with
      | none => simp [hh, Effect.origin]
      | some touch => simp [hh, Effect.origin]

/-- Among the effects of several callbacks, those of handle `h` come from the timers of handle `h`. -/
theorem effectsOfTimer_flatMap (h : Nat) (ts : List Timer) :
    effectsOfTimer h (ts.flatMap callbackEffects) =
      (ts.filter (fun t => t.handle == h)).flatMap callbackEffects := by
  induction ts with
  | nil => simp [effectsOfTimer]
  | cons t ts ih =>
    rw [List.flatMap_cons, effectsOfTimer_append, ih, effectsOfTimer_callbackEffects]
    by_cases hh : t.handle = h
    · simp [hh]
    · simp [hh]

/-- Selecting by handle commutes with any other selection of timers. -/
theorem filter_handle_filter (h : Nat) (p : Timer → Bool) (ts : List Timer) :
    (ts.filter p).filter (fun t => t.handle == h) =
      (ts.filter (fun t => t.handle == h)).filter p := by
  simp only [List.filter_filter]
  congr 1
  funext t
  exact Bool.and_comm _ _

/-- `clearTimeout` changes nothing but the timer table. -/
theorem clearTimeout_frame (handle : Option Nat) (st : Recognizer) :
    (clearTimeout handle st).log = st.log ∧ (clearTimeout handle st).now = st.now ∧
    (clearTimeout handle st).nextHandle = st.nextHandle ∧
    (clearTimeout handle st).pressTimer = st.pressTimer := by
  cases handle <;> simp [clearTimeout]

/-- `clearTimeout` only removes timers. -/
theorem clearTimeout_filter (handle : Option Nat) (h : Nat) (st : Recognizer) :
    ∃ p : Timer → Bool, (clearTimeout handle st).timers.filter (fun t => t.handle == h) =
      (st.timers.filter (fun t => t.handle == h)).filter p := by
  cases handle with
  | none => exact ⟨fun _ => true, by simp [clearTimeout]⟩
  | some k => exact ⟨fun t => t.handle != k, by simp only [clearTimeout]; exact filter_handle_filter _ _ _⟩

/-- The `contextmenu` listener leaves timers, clock, handle supply and `pressTimer` alone. -/
theorem contextmenu_frame (s : Nat) (e : MouseEvent) (st : Recognizer) :
    (contextmenu s e st).timers = st.timers ∧ (contextmenu s e st).now = st.now ∧
    (contextmenu s e st).nextHandle = st.nextHandle ∧
    (contextmenu s e st).pressTimer = st.pressTimer := by
  unfold contextmenu
  cases e.target.closest identitySelector <;> simp

/-- The log after the `contextmenu` listener. -/
theorem contextmenu_log (s : Nat) (e : MouseEvent) (st : Recognizer) :
    (contextmenu s e st).log = st.log ++
      Effect.preventDefault Origin.click ::
        (match e.target.closest identitySelector with
         | none => []
         | some target => [Effect.intent Origin.click s target e.pageX e.pageY]) := by
  unfold contextmenu
  cases e.target.closest identitySelector <;> simp

/-- The `contextmenu` listener adds no effect of a timer. -/
theorem contextmenu_effectsOfTimer (h s : Nat) (e : MouseEvent) (st : Recognizer) :
    effectsOfTimer h (contextmenu s e st).log = effectsOfTimer h st.log := by
  rw [contextmenu_log, effectsOfTimer_append]
  cases e.target.closest identitySelector <;> simp [effectsOfTimer, Effect.origin]

/-- A timer that is gone stays gone and has no further effect, whatever happens next. -/
theorem gone_step (h : Nat) (st : Recognizer) (i : Input) (hg : Gone h st) :
    Gone h (st.step i) ∧ effectsOfTimer h (st.step i).log = effectsOfTimer h st.log := by
  obtain ⟨hf, hlt⟩ := hg
  cases i with
  | touchstart s e =>
    refine ⟨⟨?_, ?_⟩, rfl⟩
    · have hne : ¬ st.nextHandle = h := Nat.ne_of_gt hlt
      simp [Recognizer.step, touchstart, List.filter_append, hf, hne]
    · exact Nat.lt_succ_of_lt hlt
  | touchend s =>
    obtain ⟨p, hp⟩ := clearTimeout_filter st.pressTimer h st
    have hfr := clearTimeout_frame st.pressTimer st
    refine ⟨⟨?_, ?_⟩, ?_⟩
    · simp only [Recognizer.step, touchend]; rw [hp, hf]; rfl
    · simp only [Recognizer.step, touchend]; rw [hfr.2.2.1]; exact hlt
    · simp only [Recognizer.step, touchend]; rw [hfr.1]
  | touchmove s =>
    obtain ⟨p, hp⟩ := clearTimeout_filter st.pressTimer h st
    have hfr := clearTimeout_frame st.pressTimer st
    refine ⟨⟨?_, ?_⟩, ?_⟩
    · simp only [Recognizer.step, touchmove]; rw [hp, hf]; rfl
    · simp only [Recognizer.step, touchmove]; rw [hfr.2.2.1]; exact hlt
    · simp only [Recognizer.step, touchmove]; rw [hfr.1]
  | contextmenu s e =>
    have hfr := contextmenu_frame s e st
    refine ⟨⟨?_, ?_⟩, ?_⟩
    · simp only [Recognizer.step]; rw [hfr.1]; exact hf
    · simp only [Recognizer.step]; rw [hfr.2.2.1]; exact hlt
    · exact contextmenu_effectsOfTimer h s e st
  | advance ms =>
    have hfr := advance_frame ms st
    refine ⟨⟨?_, ?_⟩, ?_⟩
    · simp only [Recognizer.step]; rw [hfr.1, filter_handle_filter, hf]; rfl
    · simp only [Recognizer.step]; rw [hfr.2.2.1]; exact hlt
    · simp only [Recognizer.step]
      rw [advance_log, effectsOfTimer_append, effectsOfTimer_flatMap, filter_handle_filter, hf]
      simp

/-- A timer that is gone stays gone and has no further effect, along any run. -/
theorem gone_run (h : Nat) (inputs : List Input) (st : Recognizer) (hg : Gone h st) :
    Gone h (st.run inputs) ∧ effectsOfTimer h (st.run inputs).log = effectsOfTimer h st.log := by
  induction inputs generalizing st with
  | nil => exact ⟨hg, rfl⟩
  | cons i inputs ih =>
    obtain ⟨hg1, he1⟩ := gone_step h st i hg
    obtain ⟨hg2, he2⟩ := ih (st.step i) hg1
    exact ⟨hg2, he2.trans he1⟩

/-- The origin of every effect of a callback is its timer. -/
theorem callbackEffects_origin (t : Timer) (ef : Effect) (h : ef ∈ callbackEffects t) :
    ef.origin = Origin.timer t.handle := by
  unfold callbackEffects at h
  cases hc : t.ev.target.closest identitySelector with
  | none =>
    simp [hc] at h
    subst h; rfl
  | some target =>
    cases ht : t.ev.touches.head? with
    | none =>
      simp [hc, ht] at h
      rcases h with h | h <;> subst h <;> rfl
    | some touch =>
      simp [hc, ht] at h
      rcases h with h | h <;> subst h <;> rfl

/-- The handle invariant holds when the script is loaded. -/
theorem recInv_init : RecInv Recognizer.init := by
  simp [RecInv, Recognizer.init]

/-- Every step keeps the handle invariant. -/
theorem recInv_step (st : Recognizer) (i : Input) (hinv : RecInv st) : RecInv (st.step i) := by
  obtain ⟨ht, hl⟩ := hinv
  cases i with
  | touchstart s e =>
    refine ⟨?_, ?_⟩
    · intro t hmem
      simp only [Recognizer.step, touchstart, List.mem_append, List.mem_singleton] at hmem ⊢
      rcases hmem with hmem | hmem
      · exact Nat.lt_succ_of_lt (ht t hmem)
      · subst hmem; exact Nat.lt_succ_self _
    · intro ef hmem h ho
      exact Nat.lt_succ_of_lt (hl ef hmem h ho)
  | touchend s =>
    have hfr := clearTimeout_frame st.pressTimer st
    refine ⟨?_, ?_⟩
    · intro t hmem
      simp only [Recognizer.step, touchend] at hmem ⊢
      rw [hfr.2.2.1]
      cases hp : st.pressTimer with
      | none => rw [hp] at hmem; exact ht t hmem
      | some k =>
        rw [hp] at hmem
        exact ht t (List.mem_of_mem_filter hmem)
    · intro ef hmem h ho
      simp only [Recognizer.step, touchend] at hmem ⊢
      rw [hfr.1] at hmem
      rw [hfr.2.2.1]
      exact hl ef hmem h ho
  | touchmove s =>
    have hfr := clearTimeout_frame st.pressTimer st
    refine ⟨?_, ?_⟩
    · intro t hmem
      simp only [Recognizer.step, touchmove] at hmem ⊢
      rw [hfr.2.2.1]
      cases hp : st.pressTimer with
      | none => rw [hp] at hmem; exact ht t hmem
      | some k =>
        rw [hp] at hmem
        exact ht t (List.mem_of_mem_filter hmem)
    · intro ef hmem h ho
      simp only [Recognizer.step, touchmove] at hmem ⊢
      rw [hfr.1] at hmem
      rw [hfr.2.2.1]
      exact hl ef hmem h ho
  | contextmenu s e =>
    have hfr := contextmenu_frame s e st
    refine ⟨?_, ?_⟩
    · intro t hmem
      simp only [Recognizer.step] at hmem ⊢
      rw [hfr.1] at hmem
      rw [hfr.2.2.1]
      exact ht t hmem
    · intro ef hmem h ho
      simp only [Recognizer.step] at hmem ⊢
      rw [hfr.2.2.1]
      rw [contextmenu_log, List.mem_append] at hmem
      rcases hmem with hmem | hmem
      · exact hl ef hmem h ho
      · cases hc : e.target.closest identitySelector with
        | none =>
          simp [hc] at hmem
          subst hmem
          simp [Effect.origin] at ho
        | some target =>
          simp [hc] at hmem
          rcases hmem with hmem | hmem <;> subst hmem <;> simp [Effect.origin] at ho
  | advance ms =>
    have hfr := advance_frame ms st
    refine ⟨?_, ?_⟩
    · intro t hmem
      simp only [Recognizer.step] at hmem ⊢
      rw [hfr.1] at hmem
      rw [hfr.2.2.1]
      exact ht t (List.mem_of_mem_filter hmem)
    · intro ef hmem h ho
      simp only [Recognizer.step] at hmem ⊢
      rw [hfr.2.2.1]
      rw [advance_log, List.mem_append] at hmem
      rcases hmem with hmem | hmem
      · exact hl ef hmem h ho
      · rw [List.mem_flatMap] at hmem
        obtain ⟨t, htmem, hef⟩ := hmem
        have := callbackEffects_origin t ef hef
        rw [this] at ho
        injection ho with ho
        rw [← ho]
        exact ht t (List.mem_of_mem_filter htmem)

/-- Every run keeps the handle invariant. -/
theorem recInv_run (inputs : List Input) (st : Recognizer) (hinv : RecInv st) :
    RecInv (st.run inputs) := by
  induction inputs generalizing st with
  | nil => exact hinv
  | cons i inputs ih => exact ih (st.step i) (recInv_step st i hinv)

/-- The next handle to be issued has no effect in the log. -/
theorem effectsOfTimer_fresh (st : Recognizer) (hinv : RecInv st) :
    effectsOfTimer st.nextHandle st.log = [] := by
  unfold effectsOfTimer
  rw [List.filter_eq_nil_iff]
  intro ef hmem ho
  have := hinv.2 ef hmem st.nextHandle (by simpa using ho)
  exact Nat.lt_irrefl _ this

/-- The next handle to be issued is not armed. -/
theorem filter_handle_fresh (st : Recognizer) (hinv : RecInv st) :
    st.timers.filter (fun t => t.handle == st.nextHandle) = [] := by
  rw [List.filter_eq_nil_iff]
  intro t hmem ho
  have := hinv.1 t hmem
  simp at ho
  omega

/-- After the `touchstart` listener, the timer it armed is armed. -/
theorem armed_touchstart (s : Nat) (e : TouchEvent) (st : Recognizer) (hinv : RecInv st) :
    Armed st.nextHandle
      { handle := st.nextHandle, due := st.now + longPressDelay, surface := s, ev := e }
      (touchstart s e st) := by
  refine ⟨?_, ?_, ?_, ?_⟩
  · simp [touchstart, List.filter_append, filter_handle_fresh st hinv]
  · simp [touchstart, longPressDelay]
  · simp [touchstart]
  · exact effectsOfTimer_fresh st hinv

/-- The clock moves by the time the input lets pass. -/
theorem step_now (st : Recognizer) (i : Input) : (st.step i).now = st.now + i.elapsed := by
  cases i with
  | touchstart s e => rfl
  | touchend s => exact (clearTimeout_frame _ _).2.1
  | touchmove s => exact (clearTimeout_frame _ _).2.1
  | contextmenu s e => exact (contextmenu_frame s e st).2.1
  | advance ms => exact (advance_frame ms st).2.1

/-- While nothing cancels, an armed timer fires once when it is due and stays armed until then. -/
theorem armed_step (h : Nat) (timer : Timer) (st : Recognizer) (i : Input)
    (ha : Armed h timer st) (hi : i.isCancel = false) :
    (timer.due ≤ st.now + i.elapsed →
      Gone h (st.step i) ∧ effectsOfTimer h (st.step i).log = callbackEffects timer) ∧
    (st.now + i.elapsed < timer.due → Armed h timer (st.step i)) := by
  obtain ⟨hf, hnow, hlt, hlog⟩ := ha
  cases i with
  | touchstart s e =>
    refine ⟨?_, ?_⟩
    · intro hd
      simp only [Input.elapsed] at hd
      omega
    · intro _
      have hne : ¬ st.nextHandle = h := Nat.ne_of_gt hlt
      refine ⟨?_, hnow, Nat.lt_succ_of_lt hlt, hlog⟩
      simp [Recognizer.step, touchstart, List.filter_append, hf, hne]
  | touchend s => simp [Input.isCancel] at hi
  | touchmove s => simp [Input.isCancel] at hi
  | contextmenu s e =>
    have hfr := contextmenu_frame s e st
    refine ⟨?_, ?_⟩
    · intro hd
      simp only [Input.elapsed] at hd
      omega
    · intro _
      refine ⟨?_, ?_, ?_, ?_⟩
      · simp only [Recognizer.step]; rw [hfr.1]; exact hf
      · simp only [Recognizer.step]; rw [hfr.2.1]; exact hnow
      · simp only [Recognizer.step]; rw [hfr.2.2.1]; exact hlt
      · simp only [Recognizer.step]; rw [contextmenu_effectsOfTimer]; exact hlog
  | advance ms =>
    have hfr := advance_frame ms st
    refine ⟨?_, ?_⟩
    · intro hd
      simp only [Input.elapsed] at hd
      refine ⟨⟨?_, ?_⟩, ?_⟩
      · simp only [Recognizer.step]
        rw [hfr.1, filter_handle_filter, hf]
        simp [hd]
      · simp only [Recognizer.step]; rw [hfr.2.2.1]; exact hlt
      · simp only [Recognizer.step]
        rw [advance_log, effectsOfTimer_append, effectsOfTimer_flatMap, filter_handle_filter,
          hf, hlog]
        simp [hd]
    · intro hd
      simp only [Input.elapsed] at hd
      have hnd : ¬ timer.due ≤ st.now + ms := Nat.not_le_of_lt hd
      refine ⟨?_, ?_, ?_, ?_⟩
      · simp only [Recognizer.step]
        rw [hfr.1, filter_handle_filter, hf]
        simp [hnd]
      · simp only [Recognizer.step]; rw [hfr.2.1]; exact hd
      · simp only [Recognizer.step]; rw [hfr.2.2.1]; exact hlt
      · simp only [Recognizer.step]
        rw [advance_log, effectsOfTimer_append, effectsOfTimer_flatMap, filter_handle_filter,
          hf, hlog]
        simp [hnd]

/-- The time a sequence lets pass, one input at a time. -/
theorem totalElapsed_cons (i : Input) (inputs : List Input) :
    totalElapsed (i :: inputs) = i.elapsed + totalElapsed inputs := by
  simp [totalElapsed]

/-- An armed timer that nothing cancels has the effects of one callback run once it is due. -/
theorem armed_run (h : Nat) (timer : Timer) (inputs : List Input) (st : Recognizer)
    (ha : Armed h timer st) (hi : ∀ i ∈ inputs, i.isCancel = false)
    (hd : timer.due ≤ st.now + totalElapsed inputs) :
    effectsOfTimer h (st.run inputs).log = callbackEffects timer := by
  induction inputs generalizing st with
  | nil =>
    have := ha.2.1
    simp [totalElapsed] at hd
    omega
  | cons i inputs ih =>
    have hstep := armed_step h timer st i ha (hi i (List.mem_cons_self _ _))
    have hrest : ∀ j ∈ inputs, j.isCancel = false := fun j hj => hi j (List.mem_cons_of_mem _ hj)
    rw [totalElapsed_cons] at hd
    by_cases hfire : timer.due ≤ st.now + i.elapsed
    · obtain ⟨hg, he⟩ := hstep.1 hfire
      have := gone_run h inputs (st.step i) hg
      exact this.2.trans he
    · have ha1 := hstep.2 (Nat.lt_of_not_le hfire)
      apply ih (st.step i) ha1 hrest
      rw [step_now]
      omega

/-- No timer of handle `h` is due at a time before `due`. -/
theorem filter_due_handle_nil (h due bound : Nat) (ts : List Timer)
    (hts : ∀ t ∈ ts, t.handle = h → due ≤ t.due) (hb : bound < due) :
    (ts.filter (fun t => decide (t.due ≤ bound))).filter (fun t => t.handle == h) = [] := by
  rw [List.filter_eq_nil_iff]
  intro t hmem hh
  rw [List.mem_filter] at hmem
  have h1 := hts t hmem.1 (by simpa using hh)
  have h2 : t.due ≤ bound := by simpa using hmem.2
  omega

/-- Without a new touch-start and before the timer is due, `pressTimer` keeps its handle and the timer has no effect. -/
theorem pending_step (h due : Nat) (st : Recognizer) (i : Input) (hp : Pending h due st)
    (hi : i.isTouchstart = false) (hd : st.now + i.elapsed < due) :
    Pending h due (st.step i) := by
  obtain ⟨hpt, hlt, hlog, hts⟩ := hp
  cases i with
  | touchstart s e => simp [Input.isTouchstart] at hi
  | touchend s =>
    have hfr := clearTimeout_frame st.pressTimer st
    refine ⟨?_, ?_, ?_, ?_⟩
    · simp only [Recognizer.step, touchend]; rw [hfr.2.2.2]; exact hpt
    · simp only [Recognizer.step, touchend]; rw [hfr.2.2.1]; exact hlt
    · simp only [Recognizer.step, touchend]; rw [hfr.1]; exact hlog
    · intro t hmem
      simp only [Recognizer.step, touchend, hpt, clearTimeout] at hmem
      exact hts t (List.mem_of_mem_filter hmem)
  | touchmove s =>
    have hfr := clearTimeout_frame st.pressTimer st
    refine ⟨?_, ?_, ?_, ?_⟩
    · simp only [Recognizer.step, touchmove]; rw [hfr.2.2.2]; exact hpt
    · simp only [Recognizer.step, touchmove]; rw [hfr.2.2.1]; exact hlt
    · simp only [Recognizer.step, touchmove]; rw [hfr.1]; exact hlog
    · intro t hmem
      simp only [Recognizer.step, touchmove, hpt, clearTimeout] at hmem
      exact hts t (List.mem_of_mem_filter hmem)
  | contextmenu s e =>
    have hfr := contextmenu_frame s e st
    refine ⟨?_, ?_, ?_, ?_⟩
    · simp only [Recognizer.step]; rw [hfr.2.2.2]; exact hpt
    · simp only [Recognizer.step]; rw [hfr.2.2.1]; exact hlt
    · simp only [Recognizer.step]; rw [contextmenu_effectsOfTimer]; exact hlog
    · intro t hmem
      simp only [Recognizer.step] at hmem
      rw [hfr.1] at hmem
      exact hts t hmem
  | advance ms =>
    have hfr := advance_frame ms st
    simp only [Input.elapsed] at hd
    refine ⟨?_, ?_, ?_, ?_⟩
    · simp only [Recognizer.step]; rw [hfr.2.2.2]; exact hpt
    · simp only [Recognizer.step]; rw [hfr.2.2.1]; exact hlt
    · simp only [Recognizer.step]
      rw [advance_log, effectsOfTimer_append, effectsOfTimer_flatMap,
        filter_due_handle_nil h due (st.now + ms) st.timers hts hd, hlog]
      rfl
    · intro t hmem
      simp only [Recognizer.step] at hmem
      rw [hfr.1] at hmem
      exact hts t (List.mem_of_mem_filter hmem)

/-- Without a new touch-start and before the timer is due, `pressTimer` keeps its handle and the timer has no effect, along any run. -/
theorem pending_run (h due : Nat) (inputs : List Input) (st : Recognizer) (hp : Pending h due st)
    (hi : ∀ i ∈ inputs, i.isTouchstart = false) (hd : st.now + totalElapsed inputs < due) :
    Pending h due (st.run inputs) := by
  induction inputs generalizing st with
  | nil => exact hp
  | cons i inputs ih =>
    rw [totalElapsed_cons] at hd
    have h1 := pending_step h due st i hp (hi i (List.mem_cons_self _ _)) (by omega)
    apply ih (st.step i) h1 (fun j hj => hi j (List.mem_cons_of_mem _ hj))
    rw [step_now]
    omega

/-- A `touchend` or `touchmove` listener, of any attachment, removes the timer held in `pressTimer`. -/
theorem pending_cancel (h due : Nat) (st : Recognizer) (i : Input) (hp : Pending h due st)
    (hi : i.isCancel = true) :
    Gone h (st.step i) ∧ effectsOfTimer h (st.step i).log = [] := by
  obtain ⟨hpt, hlt, hlog, -⟩ := hp
  have hfr := clearTimeout_frame st.pressTimer st
  have hgone : (clearTimeout st.pressTimer st).timers.filter (fun t => t.handle == h) = [] := by
    rw [hpt]
    simp only [clearTimeout, List.filter_filter]
    rw [List.filter_eq_nil_iff]
    intro t _
    simp
  cases i with
  | touchstart s e => simp [Input.isCancel] at hi
  | contextmenu s e => simp [Input.isCancel] at hi
  | advance ms => simp [Input.isCancel] at hi
  | touchend s =>
    refine ⟨⟨hgone, ?_⟩, ?_⟩
    · simp only [Recognizer.step, touchend]; rw [hfr.2.2.1]; exact hlt
    · simp only [Recognizer.step, touchend]; rw [hfr.1]; exact hlog
  | touchmove s =>
    refine ⟨⟨hgone, ?_⟩, ?_⟩
    · simp only [Recognizer.step, touchmove]; rw [hfr.2.2.1]; exact hlt
    · simp only [Recognizer.step, touchmove]; rw [hfr.1]; exact hlog

/-- After the `touchstart` listener, `pressTimer` holds the handle of the timer it armed. -/
theorem pending_touchstart (s : Nat) (e : TouchEvent) (st : Recognizer) (hinv : RecInv st) :
    Pending st.nextHandle (st.now + longPressDelay) (touchstart s e st) := by
  refine ⟨rfl, Nat.lt_succ_self _, effectsOfTimer_fresh st hinv, ?_⟩
  intro t hmem hh
  simp only [touchstart, List.mem_append, List.mem_singleton] at hmem
  rcases hmem with hmem | hmem
  · have := hinv.1 t hmem
    omega
  · subst hmem
    exact Nat.le_refl _

/-- Running a concatenation of input sequences. -/
theorem run_append (st : Recognizer) (xs ys : List Input) :
    st.run (xs ++ ys) = (st.run xs).run ys := by
  simp [Recognizer.run, List.foldl_append]

/-- A target passed by the callback of a timer is the nearest identity-bearing
inclusive ancestor of the target of the captured event. -/
theorem callbackEffects_target (t : Timer) (ef : Effect) (target : Element)
    (h : ef ∈ callbackEffects t) (ht : ef.target? = some target) :
    t.ev.target.closest identitySelector = some target := by
  unfold callbackEffects at h
  cases hc : t.ev.target.closest identitySelector with
  | none =>
    simp [hc] at h
    subst h
    simp [Effect.target?] at ht
  | some found =>
    cases hh : t.ev.touches.head? with
    | none =>
      simp [hc, hh] at h
      rcases h with h | h <;> subst h <;> simp [Effect.target?] at ht
    | some touch =>
      simp [hc, hh] at h
      rcases h with h | h
      · subst h; simp [Effect.target?] at ht
      · subst h
        simp [Effect.target?] at ht
        rw [ht]

/-- After the `touchstart` listener, the new handle belongs to the timer it armed. -/
theorem owned_touchstart (s : Nat) (e : TouchEvent) (st : Recognizer) (hinv : RecInv st) :
    Owned st.nextHandle
      { handle := st.nextHandle, due := st.now + longPressDelay, surface := s, ev := e }
      (touchstart s e st) := by
  refine ⟨Nat.lt_succ_self _, ?_, ?_⟩
  · intro t hmem hh
    simp only [touchstart, List.mem_append, List.mem_singleton] at hmem
    rcases hmem with hmem | hmem
    · have := hinv.1 t hmem
      omega
    · exact hmem
  · intro ef hmem
    have : effectsOfTimer st.nextHandle (touchstart s e st).log = [] :=
      effectsOfTimer_fresh st hinv
    rw [this] at hmem
    simp at hmem

/-- A handle keeps its timer, whatever happens next. -/
theorem owned_step (h : Nat) (timer : Timer) (st : Recognizer) (i : Input)
    (ho : Owned h timer st) : Owned h timer (st.step i) := by
  obtain ⟨hlt, hts, hlog⟩ := ho
  cases i with
  | touchstart s e =>
    refine ⟨Nat.lt_succ_of_lt hlt, ?_, hlog⟩
    intro t hmem hh
    simp only [Recognizer.step, touchstart, List.mem_append, List.mem_singleton] at hmem
    rcases hmem with hmem | hmem
    · exact hts t hmem hh
    · subst hmem
      simp only at hh
      omega
  | touchend s =>
    have hfr := clearTimeout_frame st.pressTimer st
    refine ⟨?_, ?_, ?_⟩
    · simp only [Recognizer.step, touchend]; rw [hfr.2.2.1]; exact hlt
    · intro t hmem hh
      simp only [Recognizer.step, touchend] at hmem
      cases hp : st.pressTimer with
      | none => rw [hp] at hmem; exact hts t hmem hh
      | some k => rw [hp] at hmem; exact hts t (List.mem_of_mem_filter hmem) hh
    · simp only [Recognizer.step, touchend]; rw [hfr.1]; exact hlog
  | touchmove s =>
    have hfr := clearTimeout_frame st.pressTimer st
    refine ⟨?_, ?_, ?_⟩
    · simp only [Recognizer.step, touchmove]; rw [hfr.2.2.1]; exact hlt
    · intro t hmem hh
      simp only [Recognizer.step, touchmove] at hmem
      cases hp : st.pressTimer with
      | none => rw [hp] at hmem; exact hts t hmem hh
      | some k => rw [hp] at hmem; exact hts t (List.mem_of_mem_filter hmem) hh
    · simp only [Recognizer.step, touchmove]; rw [hfr.1]; exact hlog
  | contextmenu s e =>
    have hfr := contextmenu_frame s e st
    refine ⟨?_, ?_, ?_⟩
    · simp only [Recognizer.step]; rw [hfr.2.2.1]; exact hlt
    · intro t hmem hh
      simp only [Recognizer.step] at hmem
      rw [hfr.1] at hmem
      exact hts t hmem hh
    · simp only [Recognizer.step]; rw [contextmenu_effectsOfTimer]; exact hlog
  | advance ms =>
    have hfr := advance_frame ms st
    refine ⟨?_, ?_, ?_⟩
    · simp only [Recognizer.step]; rw [hfr.2.2.1]; exact hlt
    · intro t hmem hh
      simp only [Recognizer.step] at hmem
      rw [hfr.1] at hmem
      exact hts t (List.mem_of_mem_filter hmem) hh
    · intro ef hmem
      simp only [Recognizer.step] at hmem
      rw [advance_log, effectsOfTimer_append, effectsOfTimer_flatMap, List.mem_append] at hmem
      rcases hmem with hmem | hmem
      · exact hlog ef hmem
      · rw [List.mem_flatMap] at hmem
        obtain ⟨t, htmem, hef⟩ := hmem
        rw [List.mem_filter] at htmem
        have hmem2 := List.mem_of_mem_filter htmem.1
        have : t = timer := hts t hmem2 (by simpa using htmem.2)
        rw [← this]
        exact hef

/-- A handle keeps its timer along any run. -/
theorem owned_run (h : Nat) (timer : Timer) (inputs : List Input) (st : Recognizer)
    (ho : Owned h timer st) : Owned h timer (st.run inputs) := by
  induction inputs generalizing st with
  | nil => exact ho
  | cons i inputs ih => exact ih (st.step i) (owned_step h timer st i ho)

/-- The calls of the callback in a concatenated log. -/
theorem intents_append (l1 l2 : List Effect) : intents (l1 ++ l2) = intents l1 ++ intents l2 := by
  simp [intents]

/-- `closest` finds the first element of the chain that matches: when the
chain splits into elements that do not match, a matching element and a rest,
the matching element is the result. -/
theorem closest_of_split (n : DomNode) (selector : Element → Bool) (before after : List Element)
    (target : Element) (hsplit : n.inclusiveAncestors = before ++ target :: after)
    (hbefore : ∀ el ∈ before, selector el = false) (htarget : selector target = true) :
    n.closest selector = some target := by
  unfold DomNode.closest
  rw [List.find?_eq_some]
  refine ⟨htarget, before, after, hsplit, ?_⟩
  intro el hel
  simp [hbefore el hel]

/-- `closest` finds nothing when no element of the chain matches. -/
theorem closest_of_none (n : DomNode) (selector : Element → Bool)
    (hnone : ∀ el ∈ n.inclusiveAncestors, selector el = false) :
    n.closest selector = none := by
  unfold DomNode.closest
  rw [List.find?_eq_none]
  intro el hel
  simp [hnone el hel]

/-- `closest` finds something as soon as one element of the chain matches. -/
theorem closest_isSome_of_mem (n : DomNode) (selector : Element → Bool) (el : Element)
    (hmem : el ∈ n.inclusiveAncestors) (hsel : selector el = true) :
    (n.closest selector).isSome = true := by
  unfold DomNode.closest
  rw [List.find?_isSome]
  exact ⟨el, hmem, hsel⟩

/-! ## Lemmas on the presenter -/

/-- Removing the only popup leaves none. -/
theorem removeElement_popups_single (doc : Document) (menu : Popup) (h : doc.popups = [menu]) :
    (removeElement menu.uid doc).popups = [] := by
  simp [removeElement, h]

/-- On a document with at most one popup, `showContextMenu` leaves exactly the popup it builds. -/
theorem showContextMenu_popups (options : Options) (doc : Document)
    (hdoc : doc.popups.length ≤ 1) :
    ∃ menu, (showContextMenu options doc).popups = [menu] ∧ menu.uid = doc.nextUid ∧
      menu.rows = options.items.map menuItemFor ∧ menu.target = options.targetElement ∧
      menu.top = (anchorTouch options.event).map TouchPoint.pageY ∧
      menu.left = (anchorTouch options.event).map TouchPoint.pageX := by
  have hrem : (match getElementById doc with
      | some existingMenu => removeElement existingMenu.uid doc
      | none => doc).popups = [] ∧
      (match getElementById doc with
      | some existingMenu => removeElement existingMenu.uid doc
      | none => doc).nextUid = doc.nextUid := by
    cases hp : doc.popups with
    | nil => simp [getElementById, hp]
    | cons m rest =>
      cases rest with
      | nil => simp [getElementById, hp, removeElement]
      | cons m2 rest2 => simp [hp] at hdoc
  unfold showContextMenu
  cases hto : anchorTouch options.event with
  | none => simp [hrem.1, hrem.2]
  | some touch => simp [hrem.1, hrem.2]

/-- `showContextMenu` logs nothing when the anchor is defined. -/
theorem showContextMenu_log_of_touch (options : Options) (doc : Document) (touch : TouchPoint)
    (h : anchorTouch options.event = some touch) :
    (showContextMenu options doc).log = doc.log := by
  unfold showContextMenu
  simp only [h]
  cases getElementById doc <;> simp [removeElement]

/-- `showContextMenu` uses up one element identity. -/
theorem showContextMenu_nextUid (options : Options) (doc : Document) :
    (showContextMenu options doc).nextUid = doc.nextUid + 1 := by
  unfold showContextMenu
  cases anchorTouch options.event <;> cases getElementById doc <;> simp [removeElement]

/-- Removing an element keeps the document invariant. -/
theorem docInv_removeElement (uid : Nat) (doc : Document) (h : DocInv doc) :
    DocInv (removeElement uid doc) := by
  refine ⟨?_, ?_⟩
  · exact le_trans (List.length_filter_le _ _) h.1
  · intro m hm
    exact h.2 m (List.mem_of_mem_filter hm)

/-- `closeContextMenu` keeps the document invariant. -/
theorem docInv_closeContextMenu (doc : Document) (h : DocInv doc) :
    DocInv (closeContextMenu doc) := by
  unfold closeContextMenu
  cases getElementById doc with
  | none => exact h
  | some menu => exact docInv_removeElement _ _ h

/-- `showContextMenu` keeps the document invariant. -/
theorem docInv_showContextMenu (options : Options) (doc : Document) (h : DocInv doc) :
    DocInv (showContextMenu options doc) := by
  obtain ⟨menu, hpop, huid, -⟩ := showContextMenu_popups options doc h.1
  refine ⟨by simp [hpop], ?_⟩
  intro m hm
  rw [hpop] at hm
  simp at hm
  rw [showContextMenu_nextUid, hm, huid]
  exact Nat.lt_succ_self _

/-- Selecting a row keeps the document invariant. -/
theorem docInv_selectItem (menuUid index : Nat) (doc : Document) (h : DocInv doc) :
    DocInv (selectItem menuUid index doc) := by
  unfold selectItem
  split
  · exact h
  · split
    · exact h
    · rename_i menu _ row _
      simp only [menuItemOnclick]
      by_cases hr : row.item.action.raises = true
      · simp only [hr, if_true]; exact h
      · simp only [hr]
        exact docInv_removeElement _ _ h

/-- The correction does not change the identity of the popup. -/
theorem correctPosition_uid (window : Viewport) (rect : Rect) (menu : Popup) :
    (correctPosition window rect menu).uid = menu.uid := by
  unfold correctPosition
  by_cases h1 : rect.right > window.innerWidth <;>
  by_cases h2 : rect.bottom > window.innerHeight <;> simp [h1, h2]

/-- The deferred correction keeps the document invariant. -/
theorem docInv_deferredCorrection (uid : Nat) (width height : Int) (window : Viewport)
    (doc : Document) (h : DocInv doc) : DocInv (deferredCorrection uid width height window doc) := by
  unfold deferredCorrection
  by_cases hc : doc.pendingCorrections.contains uid = true
  · simp only [hc, if_true]
    refine ⟨by simpa using h.1, ?_⟩
    intro m hm
    simp only [List.mem_map] at hm
    obtain ⟨m0, hm0, rfl⟩ := hm
    by_cases hu : m0.uid = uid
    · simp only [hu, if_true]
      rw [correctPosition_uid]
      exact h.2 m0 hm0
    · simp only [hu, if_false]
      exact h.2 m0 hm0
  · simp only [hc]
    exact h

/-- Every step keeps the document invariant. -/
theorem docInv_step (doc : Document) (op : Op) (h : DocInv doc) : DocInv (doc.step op) := by
  cases op with
  | «show» options => exact docInv_showContextMenu options doc h
  | close => exact docInv_closeContextMenu doc h
  | select menuUid index => exact docInv_selectItem menuUid index doc h
  | click target =>
    simp only [Document.step, documentClick]
    split
    · exact docInv_closeContextMenu doc h
    · exact h
  | touchstart target =>
    simp only [Document.step, documentTouchstart]
    split
    · exact docInv_closeContextMenu doc h
    · exact h
  | layout uid width height window => exact docInv_deferredCorrection uid width height window doc h

/-- Every run keeps the document invariant. -/
theorem docInv_run (ops : List Op) (doc : Document) (h : DocInv doc) : DocInv (doc.run ops) := by
  induction ops generalizing doc with
  | nil => exact h
  | cons op ops ih => exact ih (doc.step op) (docInv_step doc op h)

/-- A document without popup satisfies the document invariant. -/
theorem docInv_of_no_popup (doc : Document) (h : doc.popups = []) : DocInv doc := by
  simp [DocInv, h]

/-- `showContextMenu` schedules the correction of the popup it builds when the anchor is defined. -/
theorem showContextMenu_pending (options : Options) (doc : Document) (touch : TouchPoint)
    (h : anchorTouch options.event = some touch) :
    (showContextMenu options doc).pendingCorrections = doc.pendingCorrections ++ [doc.nextUid] := by
  unfold showContextMenu
  simp only [h]
  cases getElementById doc <;> simp [removeElement]

/-- The left coordinate after the correction, for any measured box. -/
theorem correctPosition_left (window : Viewport) (rect : Rect) (menu : Popup) :
    (correctPosition window rect menu).left =
      if rect.right > window.innerWidth then some (window.innerWidth - rect.width - 10)
      else menu.left := by
  unfold correctPosition
  by_cases h1 : rect.right > window.innerWidth <;>
  by_cases h2 : rect.bottom > window.innerHeight <;> simp [h1, h2]

/-- The top coordinate after the correction, for any measured box. -/
theorem correctPosition_top (window : Viewport) (rect : Rect) (menu : Popup) :
    (correctPosition window rect menu).top =
      if rect.bottom > window.innerHeight then some (window.innerHeight - rect.height - 10)
      else menu.top := by
  unfold correctPosition
  by_cases h1 : rect.right > window.innerWidth <;>
  by_cases h2 : rect.bottom > window.innerHeight <;> simp [h1, h2]

/-- The deferred correction that follows `showContextMenu` corrects the popup just built. -/
theorem deferredCorrection_after_show (doc : Document) (options : Options) (anchor : TouchPoint)
    (width height : Int) (window : Viewport)
    (hdoc : doc.popups.length ≤ 1) (hanchor : anchorTouch options.event = some anchor) :
    ∃ menu, (showContextMenu options doc).popups = [menu] ∧
      menu.left = some anchor.pageX ∧ menu.top = some anchor.pageY ∧
      (deferredCorrection doc.nextUid width height window (showContextMenu options doc)).popups =
        [correctPosition window (menu.boundingClientRect width height) menu] := by
  obtain ⟨menu, hpop, huid, -, -, htop, hleft⟩ := showContextMenu_popups options doc hdoc
  refine ⟨menu, hpop, by simpa [hanchor] using hleft, by simpa [hanchor] using htop, ?_⟩
  unfold deferredCorrection
  rw [showContextMenu_pending options doc anchor hanchor]
  simp [hpop, huid]

/-- A node inside the popup has an inclusive ancestor of class `context-menu`. -/
theorem closest_of_isInside (target : DomNode) (menu : Popup) (h : target.isInside menu = true) :
    (target.closest contextMenuSelector).isSome = true := by
  unfold DomNode.closest
  rw [List.find?_isSome]
  refine ⟨menu.element, ?_, ?_⟩
  · simpa [DomNode.isInside] using h
  · simp [contextMenuSelector, Popup.element]

/-- `closeContextMenu` removes the only popup. -/
theorem closeContextMenu_popups_single (doc : Document) (menu : Popup) (h : doc.popups = [menu]) :
    (closeContextMenu doc).popups = [] := by
  simp [closeContextMenu, getElementById, h, removeElement]

/-- `closeContextMenu` logs nothing. -/
theorem closeContextMenu_log (doc : Document) : (closeContextMenu doc).log = doc.log := by
  unfold closeContextMenu
  cases getElementById doc <;> simp [removeElement]

/-- `closeContextMenu` changes nothing when there is no popup. -/
theorem closeContextMenu_of_no_popup (doc : Document) (h : doc.popups = []) :
    closeContextMenu doc = doc := by
  simp [closeContextMenu, getElementById, h]

/-- `closeContextMenu` leaves no popup when there was at most one. -/
theorem closeContextMenu_popups (doc : Document) (h : doc.popups.length ≤ 1) :
    (closeContextMenu doc).popups = [] := by
  cases hp : doc.popups with
  | nil => rw [closeContextMenu_of_no_popup doc hp, hp]
  | cons m rest =>
    cases rest with
    | nil => exact closeContextMenu_popups_single doc m hp
    | cons m2 rest2 => simp [hp] at h

/-- The three cases of `event.touches ? event.touches[0] : event`: no touch
list, a touch list with a first point, an empty touch list. -/
theorem anchorTouch_cases (event : AnchorEvent) :
    (event.touches = none →
      anchorTouch event = some { pageX := event.pageX, pageY := event.pageY }) ∧
    (∀ first rest, event.touches = some (first :: rest) → anchorTouch event = some first) ∧
    (event.touches = some [] → anchorTouch event = none) := by
  refine ⟨?_, ?_, ?_⟩
  · intro h; simp [anchorTouch, h]
  · intro first rest h; simp [anchorTouch, h]
  · intro h; simp [anchorTouch, h]

/-- The correction changes the left and top coordinates only, each on its own test. -/
theorem correctPosition_eq (window : Viewport) (rect : Rect) (menu : Popup) :
    correctPosition window rect menu =
      { menu with
        left := if rect.right > window.innerWidth
                then some (window.innerWidth - rect.width - 10) else menu.left
        top := if rect.bottom > window.innerHeight
               then some (window.innerHeight - rect.height - 10) else menu.top } := by
  unfold correctPosition
  by_cases h1 : rect.right > window.innerWidth <;>
  by_cases h2 : rect.bottom > window.innerHeight <;> simp [h1, h2]

/-- The popup after `showContextMenu` and its deferred correction, in closed form. -/
theorem deferredCorrection_position (doc : Document) (options : Options) (anchor : TouchPoint)
    (width height : Int) (window : Viewport)
    (hdoc : doc.popups.length ≤ 1) (hanchor : anchorTouch options.event = some anchor) :
    ∃ menu, (showContextMenu options doc).popups = [menu] ∧
      menu.left = some anchor.pageX ∧ menu.top = some anchor.pageY ∧
      (deferredCorrection doc.nextUid width height window (showContextMenu options doc)).popups =
        [{ menu with
           left := some (if anchor.pageX + width > window.innerWidth
                         then window.innerWidth - width - 10 else anchor.pageX)
           top := some (if anchor.pageY + height > window.innerHeight
                        then window.innerHeight - height - 10 else anchor.pageY) }] := by
  obtain ⟨menu, hshown, hleft, htop, hfinal⟩ :=
    deferredCorrection_after_show doc options anchor width height window hdoc hanchor
  refine ⟨menu, hshown, hleft, htop, ?_⟩
  rw [hfinal, correctPosition_eq]
  simp only [Popup.boundingClientRect, hleft, htop, Option.getD_some]
  by_cases h1 : anchor.pageX + width > window.innerWidth <;>
  by_cases h2 : anchor.pageY + height > window.innerHeight <;> simp [h1, h2]

/-- Selecting the row of an item of the popup just shown calls the action of
that item with the target of the options, and nothing else. -/
theorem selectItem_after_show (doc : Document) (options : Options) (index : Nat) (item : Item)
    (hdoc : doc.popups.length ≤ 1) (hitem : options.items.get? index = some item) :
    (selectItem doc.nextUid index (showContextMenu options doc)).log =
        (showContextMenu options doc).log ++
          DocEffect.actionCalled item.action.tag options.targetElement ::
            (if item.action.raises then [DocEffect.uncaught] else []) := by
  obtain ⟨menu, hpop, huid, hrows, htarget, -, -⟩ := showContextMenu_popups options doc hdoc
  have hrow : menu.rows.get? index = some (menuItemFor item) := by
    rw [hrows]
    simp [List.get?_eq_getElem?] at hitem ⊢
    exact ⟨item, hitem, rfl⟩
  have hfind : (showContextMenu options doc).popups.find? (fun m => m.uid == doc.nextUid)
      = some menu := by
    simp [hpop, huid]
  unfold selectItem
  rw [hfind]
  simp only [hrow, menuItemOnclick]
  by_cases hr : item.action.raises = true
  · simp [hr, menuItemFor, htarget]
  · simp [hr, menuItemFor, htarget, removeElement]

/-! ## The claims -/

/-- Claim C1, counterexample: the popup is shown with one row whose action
raises; selecting the row calls the action with the bound target, the error
leaves the handler, and the popup is still in the document. -/
theorem select_raising_action_keeps_popup :
    (showContextMenu Example.failingOptions Document.empty).popups.length = 1 ∧
    (selectItem 0 0 (showContextMenu Example.failingOptions Document.empty)).popups =
      (showContextMenu Example.failingOptions Document.empty).popups ∧
    (selectItem 0 0 (showContextMenu Example.failingOptions Document.empty)).log =
      [DocEffect.actionCalled 7 Example.item42, DocEffect.uncaught] := by
  decide

/-- Claim C1, as amended: for every popup opened by `showContextMenu` and every
rendered item of it, selecting the item calls the action of that item, once,
with the bound target element; when the action returns normally no popup is
left in the document, and when it raises the error leaves the handler and the
popup stays. -/
theorem select_invokes_action (doc : Document) (options : Options) (index : Nat) (item : Item)
    (hdoc : doc.popups.length ≤ 1) (hitem : options.items.get? index = some item) :
    (selectItem doc.nextUid index (showContextMenu options doc)).log =
        (showContextMenu options doc).log ++
          DocEffect.actionCalled item.action.tag options.targetElement ::
            (if item.action.raises then [DocEffect.uncaught] else []) ∧
    (selectItem doc.nextUid index (showContextMenu options doc)).popups =
        (if item.action.raises then (showContextMenu options doc).popups else []) := by
  obtain ⟨menu, hpop, huid, hrows, htarget, -, -⟩ := showContextMenu_popups options doc hdoc
  have hrow : menu.rows.get? index = some (menuItemFor item) := by
    rw [hrows]
    simp [List.get?_eq_getElem?] at hitem ⊢
    exact ⟨item, hitem, rfl⟩
  have hfind : (showContextMenu options doc).popups.find? (fun m => m.uid == doc.nextUid)
      = some menu := by
    simp [hpop, huid]
  unfold selectItem
  rw [hfind]
  simp only [hrow, menuItemOnclick]
  by_cases hr : item.action.raises = true
  · simp [hr, menuItemFor, htarget]
  · simp [hr, menuItemFor, htarget, removeElement, hpop]

/-- Claim C1, witness: selecting the row of an action that returns normally
calls it with the target and leaves no popup. -/
theorem select_invokes_action_witness :
    Document.empty.popups.length ≤ 1 ∧
    Example.deleteOptions.items.get? 0 = some Example.deleteItem ∧
    (selectItem 0 0 (showContextMenu Example.deleteOptions Document.empty)).popups = [] ∧
    (selectItem Document.empty.nextUid 0
        (showContextMenu Example.deleteOptions Document.empty)).log =
      (showContextMenu Example.deleteOptions Document.empty).log ++
        DocEffect.actionCalled Example.deleteItem.action.tag
          Example.deleteOptions.targetElement ::
          (if Example.deleteItem.action.raises then [DocEffect.uncaught] else []) :=
  ⟨by decide, by decide, by decide,
    (select_invokes_action Document.empty Example.deleteOptions 0 Example.deleteItem
      (by decide) (by decide)).1⟩

/-- Claim C2, at the failing input: a touch-start at 0 ms, a second touch-start
at 100 ms and a touch-end at 200 ms, so that each touch-start is followed by a
touch-end before 500 ms; at 500 ms the timer of the first touch-start fires
all the same and the callback is called. -/
theorem leaked_timer_fires_after_touchend :
    intents (Recognizer.init.run
      [Input.touchstart 0 Example.pressOnItem42, Input.advance 100,
       Input.touchstart 0 Example.pressOnItem42, Input.advance 100,
       Input.touchend 0, Input.advance 300]).log =
        [Effect.intent (Origin.timer 1) 0 Example.item42 100 200] := by
  decide

/-- Claim C3, counterexample: a finger is put down at (100, 200) on a child of
the element with item id 42 while another finger rests at (5, 5); the touch is
held for 600 ms and the callback is called with the anchor (5, 5), the first
point of the touch list, not with the point of the touch that started. -/
theorem second_finger_anchor_is_first_contact :
    Example.secondFingerOnItem42.changedTouches = [{ pageX := 100, pageY := 200 }] ∧
    (Recognizer.init.run
      [Input.touchstart 0 Example.secondFingerOnItem42, Input.advance 600]).log =
      [Effect.preventDefault (Origin.timer 1),
       Effect.intent (Origin.timer 1) 0 Example.item42 5 5] := by
  decide

/-- Claim C3, as amended: after any history, take a touch-start on an element
whose chain of inclusive ancestors splits into elements without identity
attribute, then `target`, which has one, then a rest, and whose touch list
starts with the point `p`. If the inputs that follow contain no touch-end and
no touch-move and let at least 500 ms pass, the timer of that touch-start calls
the callback exactly once, with `target` and the coordinates of `p`, the first
point of the touch list of the event. -/
theorem long_press_fires_once (earlier later : List Input) (surface : Nat) (e : TouchEvent)
    (before after : List Element) (target : Element) (p : TouchPoint) (others : List TouchPoint)
    (hsplit : e.target.inclusiveAncestors = before ++ target :: after)
    (hbefore : ∀ el ∈ before, identitySelector el = false)
    (htarget : identitySelector target = true)
    (htouch : e.touches = p :: others)
    (hheld : ∀ i ∈ later, i.isCancel = false)
    (hlong : longPressDelay ≤ totalElapsed later) :
    effectsOfTimer (Recognizer.init.run earlier).nextHandle
        ((Recognizer.init.run earlier).run (Input.touchstart surface e :: later)).log =
      [Effect.preventDefault (Origin.timer (Recognizer.init.run earlier).nextHandle),
       Effect.intent (Origin.timer (Recognizer.init.run earlier).nextHandle)
         surface target p.pageX p.pageY] := by
  have hclosest := closest_of_split e.target identitySelector before after target
    hsplit hbefore htarget
  have hinv := recInv_run earlier Recognizer.init recInv_init
  have ha := armed_touchstart surface e (Recognizer.init.run earlier) hinv
  have hrun := armed_run _ _ later _ ha hheld (by simp only [touchstart]; omega)
  have : ((Recognizer.init.run earlier).run (Input.touchstart surface e :: later)) =
      (touchstart surface e (Recognizer.init.run earlier)).run later := rfl
  rw [this, hrun]
  simp [callbackEffects, hclosest, htouch]

/-- Claim C3, witness: a child of the element with item id 42 is touched at
(100, 200) by the only finger on the screen and held for 600 ms; the callback
is called once, with that element and the anchor (100, 200). -/
theorem long_press_fires_once_witness :
    Example.pressOnItem42.changedTouches = Example.pressOnItem42.touches ∧
    (Recognizer.init.run [Input.touchstart 0 Example.pressOnItem42, Input.advance 600]).log =
      [Effect.preventDefault (Origin.timer 1),
       Effect.intent (Origin.timer 1) 0 Example.item42 100 200] ∧
    effectsOfTimer (Recognizer.init.run []).nextHandle
        ((Recognizer.init.run []).run
          (Input.touchstart 0 Example.pressOnItem42 :: [Input.advance 600])).log =
      [Effect.preventDefault (Origin.timer (Recognizer.init.run []).nextHandle),
       Effect.intent (Origin.timer (Recognizer.init.run []).nextHandle)
         0 Example.item42 100 200] :=
  ⟨by decide, by decide,
    long_press_fires_once [] [Input.advance 600] 0 Example.pressOnItem42
      [{ uid := 43, dataItemId := none, dataVocabId := none, classes := [] }]
      [{ uid := 1, dataItemId := none, dataVocabId := none, classes := ["list"] }]
      Example.item42 { pageX := 100, pageY := 200 } []
      (by decide) (by decide) (by decide) (by decide) (by decide) (by decide)⟩

/-- Claim C4, at the failing input: after two touch-starts two timers are
armed, with handles 1 and 2; a touch-end and a touch-move later the timer with
handle 1 is still armed. -/
theorem second_touchstart_leaves_two_timers :
    (Recognizer.init.run
      [Input.touchstart 0 Example.pressOnItem42,
       Input.touchstart 0 Example.pressOnItem42]).timers.map Timer.handle = [1, 2] ∧
    (Recognizer.init.run
      [Input.touchstart 0 Example.pressOnItem42, Input.touchstart 0 Example.pressOnItem42,
       Input.touchend 0, Input.touchmove 0]).timers.map Timer.handle = [1] := by
  decide

/-- Claim C5, counterexample: a touch held for 600 ms on surface 0 calls the
callback; with a touch-end delivered to surface 1 in between it does not; and
when a touch on surface 1 began 100 ms earlier and ends while the touch on
surface 0 is held, the only call is for surface 1, none for surface 0. -/
theorem other_surface_cancels_long_press :
    intents (Recognizer.init.run
      [Input.touchstart 0 Example.pressOnItem42, Input.advance 600]).log =
        [Effect.intent (Origin.timer 1) 0 Example.item42 100 200] ∧
    intents (Recognizer.init.run
      [Input.touchstart 0 Example.pressOnItem42, Input.advance 100, Input.touchend 1,
       Input.advance 500]).log = [] ∧
    intents (Recognizer.init.run
      [Input.touchstart 1 Example.pressOnVocab7, Input.advance 100,
       Input.touchstart 0 Example.pressOnItem42, Input.advance 100, Input.touchend 1,
       Input.advance 600]).log =
        [Effect.intent (Origin.timer 1) 1 Example.vocab7 30 40] := by
  decide

/-- Claim C5, as amended: the handle of the timer armed last is held in one
variable for all attachments. After any history, when a touch-start on some
surface is followed by inputs that contain no touch-start and let less than
500 ms pass, and then by a touch-end or touch-move delivered to any surface,
the timer of that touch-start has no effect, whatever follows. -/
theorem cancel_is_shared (earlier between later : List Input) (surface : Nat) (e : TouchEvent)
    (cancel : Input)
    (hbetween : ∀ i ∈ between, i.isTouchstart = false)
    (hshort : totalElapsed between < longPressDelay)
    (hcancel : cancel.isCancel = true) :
    effectsOfTimer (Recognizer.init.run earlier).nextHandle
      ((Recognizer.init.run earlier).run
        (Input.touchstart surface e :: (between ++ cancel :: later))).log = [] := by
  have hinv := recInv_run earlier Recognizer.init recInv_init
  have hp := pending_touchstart surface e (Recognizer.init.run earlier) hinv
  have hp2 := pending_run _ _ between _ hp hbetween (by simp only [touchstart]; omega)
  obtain ⟨hg, he⟩ := pending_cancel _ _ _ cancel hp2 hcancel
  have hrun := gone_run _ later _ hg
  have : ((Recognizer.init.run earlier).run
        (Input.touchstart surface e :: (between ++ cancel :: later))) =
      (((touchstart surface e (Recognizer.init.run earlier)).run between).step cancel).run later := by
    show ((Recognizer.init.run earlier).step (Input.touchstart surface e)).run
        (between ++ cancel :: later) = _
    rw [run_append]
    rfl
  rw [this, hrun.2, he]

/-- Claim C5, witness: a touch-start on surface 0, then 100 ms, then a
touch-move on surface 1; nothing is called in the 500 ms that follow. -/
theorem cancel_is_shared_witness :
    intents (Recognizer.init.run [Input.touchstart 0 Example.pressOnItem42, Input.advance 100,
      Input.touchmove 1, Input.advance 500]).log = [] ∧
    effectsOfTimer (Recognizer.init.run []).nextHandle
      ((Recognizer.init.run []).run
        (Input.touchstart 0 Example.pressOnItem42 ::
          ([Input.advance 100] ++ Input.touchmove 1 :: [Input.advance 500]))).log = [] :=
  ⟨by decide,
    cancel_is_shared [] [Input.advance 100] [Input.advance 500] 0 Example.pressOnItem42
      (Input.touchmove 1) (by decide) (by decide) (by decide)⟩

/-- Claim C6: in every state reached from a document without popup by showing,
closing, selecting rows, presses and touches on the document and deferred
corrections, the document holds at most one popup; and `showContextMenu` in
such a state leaves exactly one popup, the one just built: its rows are those
of the new items, in order, it is bound to the new target, and it is none of
the popups that were there before. -/
theorem single_popup (start : Document) (ops : List Op) (options : Options)
    (hstart : start.popups = []) :
    (start.run ops).popups.length ≤ 1 ∧
    ∃ menu, (showContextMenu options (start.run ops)).popups = [menu] ∧
      menu.rows = options.items.map menuItemFor ∧
      menu.target = options.targetElement ∧
      ∀ old ∈ (start.run ops).popups, old.uid ≠ menu.uid := by
  have hinv := docInv_run ops start (docInv_of_no_popup start hstart)
  refine ⟨hinv.1, ?_⟩
  obtain ⟨menu, hpop, huid, hrows, htarget, -, -⟩ :=
    showContextMenu_popups options (start.run ops) hinv.1
  refine ⟨menu, hpop, hrows, htarget, ?_⟩
  intro old hold
  rw [huid]
  exact Nat.ne_of_lt (hinv.2 old hold)

/-- Claim C6, witness: a popup is shown, a row whose action raises is selected
(the popup stays), and a second popup is shown: one popup, the second. -/
theorem single_popup_witness :
    Document.empty.popups = [] ∧
    (showContextMenu Example.deleteOptions
      (Document.empty.run [Op.show Example.failingOptions, Op.select 0 0])).popups.map
        Popup.uid = [1] ∧
    (Document.empty.run [Op.show Example.failingOptions, Op.select 0 0]).popups.length ≤ 1 ∧
    ∃ menu, (showContextMenu Example.deleteOptions
        (Document.empty.run [Op.show Example.failingOptions, Op.select 0 0])).popups = [menu] ∧
      menu.rows = Example.deleteOptions.items.map menuItemFor ∧
      menu.target = Example.deleteOptions.targetElement ∧
      ∀ old ∈ (Document.empty.run [Op.show Example.failingOptions, Op.select 0 0]).popups,
        old.uid ≠ menu.uid :=
  ⟨rfl, by decide,
    single_popup Document.empty [Op.show Example.failingOptions, Op.select 0 0]
      Example.deleteOptions rfl⟩

/-- Claim C7: a popup shown at the anchor on a document with at most one popup
and rendered with width `width` and height `height` has, after the deferred
correction, its right edge at `innerWidth - 10` if the measured right edge
`anchor.pageX + width` exceeded `innerWidth`, and its bottom edge at
`innerHeight - 10` if the measured bottom edge `anchor.pageY + height`
exceeded `innerHeight`. -/
theorem correction_edges (doc : Document) (options : Options) (anchor : TouchPoint)
    (width height : Int) (window : Viewport)
    (hdoc : doc.popups.length ≤ 1) (hanchor : anchorTouch options.event = some anchor) :
    ∃ menu,
      (deferredCorrection doc.nextUid width height window (showContextMenu options doc)).popups
        = [menu] ∧
      (anchor.pageX + width > window.innerWidth →
        ∃ left, menu.left = some left ∧ left + width = window.innerWidth - 10) ∧
      (anchor.pageY + height > window.innerHeight →
        ∃ top, menu.top = some top ∧ top + height = window.innerHeight - 10) := by
  obtain ⟨menu, -, hleft, htop, hfinal⟩ :=
    deferredCorrection_after_show doc options anchor width height window hdoc hanchor
  refine ⟨_, hfinal, ?_, ?_⟩
  · intro h
    refine ⟨window.innerWidth - width - 10, ?_, by ring⟩
    rw [correctPosition_left]
    simp [Popup.boundingClientRect, hleft, h]
  · intro h
    refine ⟨window.innerHeight - height - 10, ?_, by ring⟩
    rw [correctPosition_top]
    simp [Popup.boundingClientRect, htop, h]

/-- Claim C7, witness: anchor (900, 50), a window of 1000 by 800 and a popup
150 wide give the final left position 840. -/
theorem correction_edges_witness :
    Document.empty.popups.length ≤ 1 ∧
    anchorTouch Example.deleteOptions.event = some { pageX := 900, pageY := 50 } ∧
    (deferredCorrection 0 150 40 { innerWidth := 1000, innerHeight := 800 }
        (showContextMenu Example.deleteOptions Document.empty)).popups.map Popup.left
      = [some 840] ∧
    ∃ menu,
      (deferredCorrection Document.empty.nextUid 150 40 { innerWidth := 1000, innerHeight := 800 }
        (showContextMenu Example.deleteOptions Document.empty)).popups = [menu] ∧
      ((900 : Int) + 150 > 1000 → ∃ left, menu.left = some left ∧ left + 150 = 1000 - 10) ∧
      ((50 : Int) + 40 > 800 → ∃ top, menu.top = some top ∧ top + 40 = 800 - 10) :=
  ⟨by decide, by decide, by decide,
    correction_edges Document.empty Example.deleteOptions { pageX := 900, pageY := 50 } 150 40
      { innerWidth := 1000, innerHeight := 800 } (by decide) (by decide)⟩

/-- Claim C8, at the failing input: a popup is open and the press or touch comes
from a node that is outside the subtree of the popup but inside another element
of class `context-menu`; both document listeners leave the popup in the document. -/
theorem press_in_other_menu_keeps_popup :
    ∃ menu, (showContextMenu Example.deleteOptions Document.empty).popups = [menu] ∧
      Example.otherMenuEntry.isInside menu = false ∧
      (documentClick Example.otherMenuEntry
        (showContextMenu Example.deleteOptions Document.empty)).popups = [menu] ∧
      (documentTouchstart Example.otherMenuEntry
        (showContextMenu Example.deleteOptions Document.empty)).popups = [menu] :=
  ⟨_, rfl, by decide, by decide, by decide⟩

/-- What the two document listeners test: while a popup is open, a click or
touch-start whose origin has no inclusive ancestor of class `context-menu`
makes the listener remove the popup; one whose origin has such an ancestor, and
so every one whose origin is inside the subtree of the popup, leaves the
document as it is. -/
theorem dismissal (doc : Document) (menu : Popup) (target : DomNode) (hdoc : doc.popups = [menu]) :
    (target.closest contextMenuSelector = none →
      (documentClick target doc).popups = [] ∧ (documentTouchstart target doc).popups = []) ∧
    (target.closest contextMenuSelector ≠ none →
      documentClick target doc = doc ∧ documentTouchstart target doc = doc) ∧
    (target.isInside menu = true →
      documentClick target doc = doc ∧ documentTouchstart target doc = doc) := by
  have hsome : target.closest contextMenuSelector ≠ none →
      documentClick target doc = doc ∧ documentTouchstart target doc = doc := by
    intro h
    obtain ⟨el, hel⟩ := Option.ne_none_iff_exists'.mp h
    simp [documentClick, documentTouchstart, hel]
  refine ⟨?_, hsome, ?_⟩
  · intro h
    simp [documentClick, documentTouchstart, h, closeContextMenu_popups_single doc menu hdoc]
  · intro h
    apply hsome
    have := closest_of_isInside target menu h
    intro hn
    simp [hn] at this

/-- An instance of `dismissal`: a press on a node of the page outside every
element of class `context-menu` removes the open popup. -/
theorem dismissal_witness :
    (showContextMenu Example.deleteOptions Document.empty).popups =
      [{ uid := 0, top := some 50, left := some 900,
         rows := [menuItemFor Example.deleteItem], target := Example.item42 }] ∧
    Example.pageNode.closest contextMenuSelector = none ∧
    (documentClick Example.pageNode
      (showContextMenu Example.deleteOptions Document.empty)).popups = [] ∧
    (documentTouchstart Example.pageNode
      (showContextMenu Example.deleteOptions Document.empty)).popups = [] :=
  ⟨rfl, by decide,
    (dismissal (showContextMenu Example.deleteOptions Document.empty)
      { uid := 0, top := some 50, left := some 900,
        rows := [menuItemFor Example.deleteItem], target := Example.item42 }
      Example.pageNode rfl).1 (by decide)⟩

/-- Claim C9: `closeContextMenu` is a total function that logs no error; on a
document without popup it changes nothing; in every state reached from such a
document it leaves no popup, and closing twice is the same as closing once. -/
theorem closeContextMenu_idempotent (start : Document) (ops : List Op)
    (hstart : start.popups = []) :
    closeContextMenu start = start ∧
    (closeContextMenu (start.run ops)).popups = [] ∧
    (closeContextMenu (start.run ops)).log = (start.run ops).log ∧
    closeContextMenu (closeContextMenu (start.run ops)) = closeContextMenu (start.run ops) := by
  have hinv := docInv_run ops start (docInv_of_no_popup start hstart)
  have hclosed := closeContextMenu_popups (start.run ops) hinv.1
  exact ⟨closeContextMenu_of_no_popup start hstart, hclosed, closeContextMenu_log _,
    closeContextMenu_of_no_popup _ hclosed⟩

/-- Claim C9, witness: closing the document in which a popup has been shown. -/
theorem closeContextMenu_idempotent_witness :
    Document.empty.popups = [] ∧
    (Document.empty.run [Op.show Example.deleteOptions]).popups.length = 1 ∧
    closeContextMenu Document.empty = Document.empty ∧
    (closeContextMenu (Document.empty.run [Op.show Example.deleteOptions])).popups = [] ∧
    (closeContextMenu (Document.empty.run [Op.show Example.deleteOptions])).log =
      (Document.empty.run [Op.show Example.deleteOptions]).log ∧
    closeContextMenu (closeContextMenu (Document.empty.run [Op.show Example.deleteOptions])) =
      closeContextMenu (Document.empty.run [Op.show Example.deleteOptions]) :=
  ⟨rfl, by decide,
    closeContextMenu_idempotent Document.empty [Op.show Example.deleteOptions] rfl⟩

/-- Claim C10: the `contextmenu` listener suppresses the native menu and calls the
callback in the same step, arming no timer and letting no time pass. When the
chain of inclusive ancestors of the clicked element splits into elements
without identity attribute, then `target`, which has one, then a rest, the
callback is called exactly once, with `target` and the page coordinates of the
event; so it is called exactly once as soon as some inclusive ancestor has an
identity attribute; and it is not called when none has one. -/
theorem contextmenu_calls_back_at_once (surface : Nat) (e : MouseEvent) (st : Recognizer) :
    (∀ before target after,
      e.target.inclusiveAncestors = before ++ target :: after →
      (∀ el ∈ before, identitySelector el = false) →
      identitySelector target = true →
      (contextmenu surface e st).log = st.log ++
        [Effect.preventDefault Origin.click,
         Effect.intent Origin.click surface target e.pageX e.pageY]) ∧
    ((∃ el ∈ e.target.inclusiveAncestors, identitySelector el = true) →
      (intents (contextmenu surface e st).log).length = (intents st.log).length + 1) ∧
    ((∀ el ∈ e.target.inclusiveAncestors, identitySelector el = false) →
      (contextmenu surface e st).log = st.log ++ [Effect.preventDefault Origin.click]) ∧
    (contextmenu surface e st).timers = st.timers ∧
    (contextmenu surface e st).now = st.now ∧
    (contextmenu surface e st).pressTimer = st.pressTimer := by
  have hfr := contextmenu_frame surface e st
  refine ⟨?_, ?_, ?_, hfr.1, hfr.2.1, hfr.2.2.2⟩
  · intro before target after hsplit hbefore htarget
    rw [contextmenu_log, closest_of_split e.target identitySelector before after target
      hsplit hbefore htarget]
  · intro hex
    obtain ⟨el, hmem, hsel⟩ := hex
    have hsome := closest_isSome_of_mem e.target identitySelector el hmem hsel
    obtain ⟨target, htarget⟩ := Option.isSome_iff_exists.mp hsome
    rw [contextmenu_log, intents_append, htarget]
    simp [intents, Effect.isIntent]
  · intro hnone
    rw [contextmenu_log, closest_of_none e.target identitySelector hnone]

/-- Claim C10, witness: a secondary click at (300, 120) on a child of the
element with item id 42, itself inside a vocabulary entry, calls the callback
once with the element 42 and (300, 120); a secondary click on an element
without identity only suppresses the native menu. -/
theorem contextmenu_calls_back_at_once_witness :
    (Recognizer.init.run [Input.contextmenu 3 Example.clickInsideItem42]).log =
      [Effect.preventDefault Origin.click,
       Effect.intent Origin.click 3 Example.item42 300 120] ∧
    (Recognizer.init.run [Input.contextmenu 3 Example.clickOnPlain]).log =
      [Effect.preventDefault Origin.click] ∧
    (contextmenu 3 Example.clickInsideItem42 Recognizer.init).log = Recognizer.init.log ++
      [Effect.preventDefault Origin.click,
       Effect.intent Origin.click 3 Example.item42 300 120] :=
  ⟨by decide, by decide,
    (contextmenu_calls_back_at_once 3 Example.clickInsideItem42 Recognizer.init).1
      [{ uid := 43, dataItemId := none, dataVocabId := none, classes := [] }]
      Example.item42
      [Example.vocab7, { uid := 1, dataItemId := none, dataVocabId := none, classes := ["list"] }]
      (by decide) (by decide) (by decide)⟩

/-- Claim C11, counterexample: the touched element has no identity-bearing
inclusive ancestor and the touch is held for 500 ms; the timer callback calls
`preventDefault` on the touch-start event. -/
theorem miss_still_prevents_default :
    Example.pressOnPlain.target.closest identitySelector = none ∧
    (Recognizer.init.run [Input.touchstart 0 Example.pressOnPlain, Input.advance 500]).log =
      [Effect.preventDefault (Origin.timer 1)] := by
  decide

/-- Claim C11, as amended: when the long-press timer fires for a touch-start
whose touched element has no identity-bearing inclusive ancestor, the callback
is not called and no error is raised; the one effect of the timer is the call
of `preventDefault` on the touch-start event, made before the target is
resolved. -/
theorem miss_only_prevents_default (earlier later : List Input) (surface : Nat) (e : TouchEvent)
    (hmiss : e.target.closest identitySelector = none)
    (hheld : ∀ i ∈ later, i.isCancel = false)
    (hlong : longPressDelay ≤ totalElapsed later) :
    effectsOfTimer (Recognizer.init.run earlier).nextHandle
        ((Recognizer.init.run earlier).run (Input.touchstart surface e :: later)).log =
      [Effect.preventDefault (Origin.timer (Recognizer.init.run earlier).nextHandle)] := by
  have hinv := recInv_run earlier Recognizer.init recInv_init
  have ha := armed_touchstart surface e (Recognizer.init.run earlier) hinv
  have hrun := armed_run _ _ later _ ha hheld (by simp only [touchstart]; omega)
  have : ((Recognizer.init.run earlier).run (Input.touchstart surface e :: later)) =
      (touchstart surface e (Recognizer.init.run earlier)).run later := rfl
  rw [this, hrun]
  simp [callbackEffects, hmiss]

/-- Claim C11, witness: an element without identity is touched after a
secondary click that resolved, and held for 600 ms. -/
theorem miss_only_prevents_default_witness :
    Example.pressOnPlain.target.closest identitySelector = none ∧
    effectsOfTimer (Recognizer.init.run [Input.contextmenu 0 Example.clickOnItem42]).nextHandle
        ((Recognizer.init.run [Input.contextmenu 0 Example.clickOnItem42]).run
          (Input.touchstart 0 Example.pressOnPlain :: [Input.advance 600])).log =
      [Effect.preventDefault
        (Origin.timer (Recognizer.init.run [Input.contextmenu 0 Example.clickOnItem42]).nextHandle)] :=
  ⟨by decide,
    miss_only_prevents_default [Input.contextmenu 0 Example.clickOnItem42] [Input.advance 600] 0
      Example.pressOnPlain (by decide) (by decide) (by decide)⟩

/-- Claim C12, at the failing input: the event carries an empty touch list;
`showContextMenu` raises after the popup has been appended, the popup has
neither `left` nor `top`, and no correction is scheduled. -/
theorem show_fails_on_empty_touch_list :
    anchorTouch Example.touchendOptions.event = none ∧
    (showContextMenu Example.touchendOptions Document.empty).log = [DocEffect.uncaught] ∧
    (showContextMenu Example.touchendOptions Document.empty).popups.map
      (fun m => (m.left, m.top)) = [(none, none)] ∧
    (showContextMenu Example.touchendOptions Document.empty).pendingCorrections = [] := by
  decide

/-- Claim C13, counterexample: the anchor (50, 50) lies inside a window of 100
by 800 and the popup is 95 wide, narrower than the window; after the deferred
correction its left coordinate is -5. -/
theorem corrected_popup_leaves_viewport :
    (deferredCorrection 0 95 40 { innerWidth := 100, innerHeight := 800 }
      (showContextMenu Example.narrowOptions Document.empty)).popups.map
        (fun m => (m.left, m.top)) = [(some (-5), some 50)] := by
  decide

/-- Claim C13, as amended: after the deferred correction the right and bottom
edges of the popup lie inside the window, for every anchor and every size; the
left and top edges are not corrected, and lie inside the window when the
anchor coordinate is not negative and the popup is at least 10 units smaller
than the window on that axis. -/
theorem corrected_popup_containment (doc : Document) (options : Options) (anchor : TouchPoint)
    (width height : Int) (window : Viewport)
    (hdoc : doc.popups.length ≤ 1) (hanchor : anchorTouch options.event = some anchor) :
    ∃ menu left top,
      (deferredCorrection doc.nextUid width height window (showContextMenu options doc)).popups
        = [menu] ∧ menu.left = some left ∧ menu.top = some top ∧
      left + width ≤ window.innerWidth ∧ top + height ≤ window.innerHeight ∧
      (0 ≤ anchor.pageX → width + 10 ≤ window.innerWidth → 0 ≤ left) ∧
      (0 ≤ anchor.pageY → height + 10 ≤ window.innerHeight → 0 ≤ top) := by
  obtain ⟨menu, -, -, -, hfinal⟩ :=
    deferredCorrection_position doc options anchor width height window hdoc hanchor
  refine ⟨_, _, _, hfinal, rfl, rfl, ?_, ?_, ?_, ?_⟩
  · by_cases h1 : anchor.pageX + width > window.innerWidth
    · simp only [h1, if_true]; omega
    · simp only [h1, if_false]; omega
  · by_cases h2 : anchor.pageY + height > window.innerHeight
    · simp only [h2, if_true]; omega
    · simp only [h2, if_false]; omega
  · intro hx hw
    by_cases h1 : anchor.pageX + width > window.innerWidth
    · simp only [h1, if_true]; omega
    · simp only [h1, if_false]; omega
  · intro hy hh
    by_cases h2 : anchor.pageY + height > window.innerHeight
    · simp only [h2, if_true]; omega
    · simp only [h2, if_false]; omega

/-- Claim C13, witness: anchor (900, 50), a popup of 150 by 40 and a window of
1000 by 800: the corrected box is (840, 50) to (990, 90). -/
theorem corrected_popup_containment_witness :
    Document.empty.popups.length ≤ 1 ∧
    anchorTouch Example.deleteOptions.event = some { pageX := 900, pageY := 50 } ∧
    (deferredCorrection 0 150 40 { innerWidth := 1000, innerHeight := 800 }
      (showContextMenu Example.deleteOptions Document.empty)).popups.map
        (fun m => (m.left, m.top)) = [(some 840, some 50)] ∧
    ∃ menu left top,
      (deferredCorrection Document.empty.nextUid 150 40 { innerWidth := 1000, innerHeight := 800 }
        (showContextMenu Example.deleteOptions Document.empty)).popups = [menu] ∧
      menu.left = some left ∧ menu.top = some top ∧
      left + 150 ≤ 1000 ∧ top + 40 ≤ 800 ∧
      ((0 : Int) ≤ 900 → (150 : Int) + 10 ≤ 1000 → 0 ≤ left) ∧
      ((0 : Int) ≤ 50 → (40 : Int) + 10 ≤ 800 → 0 ≤ top) :=
  ⟨by decide, by decide, by decide,
    corrected_popup_containment Document.empty Example.deleteOptions { pageX := 900, pageY := 50 }
      150 40 { innerWidth := 1000, innerHeight := 800 } (by decide) (by decide)⟩

/-- Claim C14: the popup shown for a list of items has one row per item, in the
order of the list; the row at position `index` holds the markup of the icon of
the item at that position (empty when it has none) followed by its label, and
selecting it calls the action of that item, once, and no other action. -/
theorem rows_follow_items (doc : Document) (options : Options)
    (hdoc : doc.popups.length ≤ 1) :
    ∃ menu, (showContextMenu options doc).popups = [menu] ∧
      menu.rows.length = options.items.length ∧
      menu.rows.map Row.item = options.items ∧
      ∀ index item, options.items.get? index = some item →
        (∃ row, menu.rows.get? index = some row ∧ row.item = item ∧
          row.innerHTML =
            "<span class=\"menu-icon\">" ++ item.icon.getD "" ++ "</span> " ++ item.label) ∧
        (selectItem doc.nextUid index (showContextMenu options doc)).log =
          (showContextMenu options doc).log ++
            DocEffect.actionCalled item.action.tag options.targetElement ::
              (if item.action.raises then [DocEffect.uncaught] else []) := by
  obtain ⟨menu, hpop, -, hrows, -, -, -⟩ := showContextMenu_popups options doc hdoc
  refine ⟨menu, hpop, by simp [hrows], ?_, ?_⟩
  · rw [hrows, List.map_map]
    have : Row.item ∘ menuItemFor = id := by
      funext item
      rfl
    rw [this, List.map_id]
  · intro index item hitem
    refine ⟨⟨menuItemFor item, ?_, rfl, rfl⟩,
      selectItem_after_show doc options index item hdoc hitem⟩
    rw [hrows]
    simp [List.get?_eq_getElem?] at hitem ⊢
    exact ⟨item, hitem, rfl⟩

/-- Claim C14, witness: the entries Edit (with icon) and Delete (without) give
two rows in that order, and selecting the second row calls the action of Delete. -/
theorem rows_follow_items_witness :
    Document.empty.popups.length ≤ 1 ∧
    (showContextMenu Example.editDeleteOptions Document.empty).popups.map
        (fun m => m.rows.map Row.innerHTML) =
      [["<span class=\"menu-icon\">E</span> Edit", "<span class=\"menu-icon\"></span> Delete"]] ∧
    (selectItem 0 1 (showContextMenu Example.editDeleteOptions Document.empty)).log =
      [DocEffect.actionCalled 1 Example.vocab7] ∧
    ∃ menu, (showContextMenu Example.editDeleteOptions Document.empty).popups = [menu] ∧
      menu.rows.length = Example.editDeleteOptions.items.length ∧
      menu.rows.map Row.item = Example.editDeleteOptions.items ∧
      ∀ index item, Example.editDeleteOptions.items.get? index = some item →
        (∃ row, menu.rows.get? index = some row ∧ row.item = item ∧
          row.innerHTML =
            "<span class=\"menu-icon\">" ++ item.icon.getD "" ++ "</span> " ++ item.label) ∧
        (selectItem Document.empty.nextUid index
            (showContextMenu Example.editDeleteOptions Document.empty)).log =
          (showContextMenu Example.editDeleteOptions Document.empty).log ++
            DocEffect.actionCalled item.action.tag Example.editDeleteOptions.targetElement ::
              (if item.action.raises then [DocEffect.uncaught] else []) :=
  ⟨by decide, by decide, by decide,
    rows_follow_items Document.empty Example.editDeleteOptions (by decide)⟩

/-- Claim C15: whatever happened before a touch-start and whatever follows it,
a target passed to the callback by the timer of that touch-start is the nearest
identity-bearing inclusive ancestor of the element of that touch-start, so that
nothing is passed when there is none; and in any state, whatever `currentTarget`
holds, the calls added by the `contextmenu` listener are determined by its
event alone: one call with the nearest identity-bearing inclusive ancestor of
the clicked element, or none. -/
theorem target_resolved_fresh (earlier later : List Input) (surface : Nat) (e : TouchEvent)
    (click : MouseEvent) (st : Recognizer) :
    (∀ ef ∈ effectsOfTimer (Recognizer.init.run earlier).nextHandle
        ((Recognizer.init.run earlier).run (Input.touchstart surface e :: later)).log,
      ∀ target, ef.target? = some target →
        e.target.closest identitySelector = some target) ∧
    intents (contextmenu surface click st).log = intents st.log ++
      (match click.target.closest identitySelector with
       | none => []
       | some target => [Effect.intent Origin.click surface target click.pageX click.pageY]) := by
  refine ⟨?_, ?_⟩
  · intro ef hmem target ht
    have hinv := recInv_run earlier Recognizer.init recInv_init
    have ho := owned_touchstart surface e (Recognizer.init.run earlier) hinv
    have hrun := owned_run _ _ later _ ho
    have heq : ((Recognizer.init.run earlier).run (Input.touchstart surface e :: later)) =
        (touchstart surface e (Recognizer.init.run earlier)).run later := rfl
    rw [heq] at hmem
    exact callbackEffects_target _ ef target (hrun.2.2 ef hmem) ht
  · rw [contextmenu_log, intents_append]
    cases click.target.closest identitySelector <;> simp [intents, Effect.isIntent]

/-- Claim C15, witness: a secondary click resolves to item 42, then a long-press
on the vocabulary entry 7 passes that entry, then a long-press on an element
without identity passes nothing. -/
theorem target_resolved_fresh_witness :
    intents (Recognizer.init.run
      [Input.contextmenu 0 Example.clickOnItem42,
       Input.touchstart 0 Example.pressOnVocab7, Input.advance 500,
       Input.touchstart 0 Example.pressOnPlain, Input.advance 500]).log =
      [Effect.intent Origin.click 0 Example.item42 5 6,
       Effect.intent (Origin.timer 1) 0 Example.vocab7 30 40] ∧
    Example.pressOnVocab7.target.closest identitySelector = some Example.vocab7 :=
  ⟨by decide,
    (target_resolved_fresh [Input.contextmenu 0 Example.clickOnItem42] [Input.advance 500] 0
      Example.pressOnVocab7 Example.clickOnItem42 Recognizer.init).1
      (Effect.intent (Origin.timer 1) 0 Example.vocab7 30 40) (by decide)
      Example.vocab7 rfl⟩

/-- Claim C16: the deferred correction that follows `showContextMenu` changes
only the coordinates of the popup. Its left coordinate stays at the x of the
anchor unless the measured right edge `anchor.pageX + width` exceeds the width
of the window, its top coordinate stays at the y of the anchor unless the
measured bottom edge `anchor.pageY + height` exceeds the height of the window,
and each coordinate is decided by the test of its own axis alone. -/
theorem correction_frame (doc : Document) (options : Options) (anchor : TouchPoint)
    (width height : Int) (window : Viewport)
    (hdoc : doc.popups.length ≤ 1) (hanchor : anchorTouch options.event = some anchor) :
    ∃ menu corrected, (showContextMenu options doc).popups = [menu] ∧
      (deferredCorrection doc.nextUid width height window (showContextMenu options doc)).popups
        = [corrected] ∧
      corrected.uid = menu.uid ∧ corrected.rows = menu.rows ∧ corrected.target = menu.target ∧
      corrected.left = some (if anchor.pageX + width > window.innerWidth
                             then window.innerWidth - width - 10 else anchor.pageX) ∧
      corrected.top = some (if anchor.pageY + height > window.innerHeight
                            then window.innerHeight - height - 10 else anchor.pageY) ∧
      (anchor.pageX + width ≤ window.innerWidth → corrected.left = some anchor.pageX) ∧
      (anchor.pageY + height ≤ window.innerHeight → corrected.top = some anchor.pageY) := by
  obtain ⟨menu, hshown, -, -, hfinal⟩ :=
    deferredCorrection_position doc options anchor width height window hdoc hanchor
  refine ⟨menu, _, hshown, hfinal, rfl, rfl, rfl, rfl, rfl, ?_, ?_⟩
  · intro h
    have : ¬ anchor.pageX + width > window.innerWidth := not_lt.mpr h
    simp [this]
  · intro h
    have : ¬ anchor.pageY + height > window.innerHeight := not_lt.mpr h
    simp [this]

/-- Claim C16, witness: anchor (900, 50), a popup of 150 by 40 and a window of
1000 by 800: the overflow on the right moves `left` to 840 and leaves `top` at 50. -/
theorem correction_frame_witness :
    Document.empty.popups.length ≤ 1 ∧
    anchorTouch Example.deleteOptions.event = some { pageX := 900, pageY := 50 } ∧
    (deferredCorrection 0 150 40 { innerWidth := 1000, innerHeight := 800 }
      (showContextMenu Example.deleteOptions Document.empty)).popups.map
        (fun m => (m.left, m.top)) = [(some 840, some 50)] ∧
    ∃ menu corrected, (showContextMenu Example.deleteOptions Document.empty).popups = [menu] ∧
      (deferredCorrection Document.empty.nextUid 150 40 { innerWidth := 1000, innerHeight := 800 }
        (showContextMenu Example.deleteOptions Document.empty)).popups = [corrected] ∧
      corrected.uid = menu.uid ∧ corrected.rows = menu.rows ∧ corrected.target = menu.target ∧
      corrected.left = some (if (900 : Int) + 150 > 1000 then 1000 - 150 - 10 else 900) ∧
      corrected.top = some (if (50 : Int) + 40 > 800 then 800 - 40 - 10 else 50) ∧
      ((900 : Int) + 150 ≤ 1000 → corrected.left = some 900) ∧
      ((50 : Int) + 40 ≤ 800 → corrected.top = some 50) :=
  ⟨by decide, by decide, by decide,
    correction_frame Document.empty Example.deleteOptions { pageX := 900, pageY := 50 }
      150 40 { innerWidth := 1000, innerHeight := 800 } (by decide) (by decide)⟩

end MobileContextMenu
